import Mathlib

/-!
Shallow embedding of the uweb3 template parser (`src/uweb3/templateparser.py`)
and proofs about the specification claims.

Conventions of the embedding:
* Python values appearing as template replacements are modelled by the
  inductive `Value` (strings with an optional safe-string marker, integers,
  booleans, `None`, lists and insertion-ordered dicts).  Custom objects with
  attributes are outside the modelled universe, so `getattr` fallbacks in
  `_GetIndex` are modelled as raising `AttributeError`.
* Python exceptions are modelled by the error type `RErr` (render time) and
  `CErr` (compile time); fallible code returns `Except`.
* The safe-string library (`ext_lib/underdark/libs/safestring`) is not part of
  the source tree; its behaviour (HTML escaping, safety marking) is modelled
  from the spec where noted.
-/

namespace UWeb3

/-- Safety class of a safe string.  Modelled from the spec: raw strings carry
no marker, HTML-safe and URL-query-safe strings carry one. -/
inductive Safety where
  | html
  | url
deriving DecidableEq, Repr

/-- A Python dict key in the modelled value universe (ints and strings). -/
inductive VKey where
  | kint (n : Int)
  | kstr (s : String)
deriving DecidableEq, Repr

/-- The modelled universe of Python replacement values. -/
inductive Value where
  | vstr (s : String) (safety : Option Safety)
  | vint (n : Int)
  | vbool (b : Bool)
  | vnone
  | vlist (xs : List Value)
  | vdict (entries : List (VKey × Value))
deriving Repr

/-- Render-time errors.  `nameErr` models `TemplateNameError` (and the
`NameError` that `TemplateConditional.Expression` converts into one),
`keyErr` models `TemplateKeyError`, `typeErr` models `TypeError` and
`TemplateTypeError`, `valueErr` models `TemplateValueError`, `synErr` models
`TemplateSyntaxError` raised at render time, `attrErr` a raw
`AttributeError`, `pyKeyErr` a raw `KeyError` (unknown function looked up
directly in `TAG_FUNCTIONS` by `TemplateTag.Iterator`). -/
inductive RErr where
  | nameErr
  | keyErr
  | typeErr
  | valueErr
  | synErr
  | attrErr
  | pyKeyErr
deriving DecidableEq, Repr

/-- A replacements mapping (`**replacements`): an insertion-ordered dict with
string keys. -/
abbrev Repl := List (String × Value)

/-- `TemplateTag`: tag name, index chain and function pipeline, as produced by
`TemplateTag.FromString`. -/
structure TemplateTag where
  name : String
  indices : List String
  functions : List String
deriving DecidableEq, Repr

/-- Join strings with a separator (`sep.join(l)`). -/
def joinSep (sep : String) : List String → String
  | [] => ""
  | [x] => x
  | x :: xs => x ++ sep ++ joinSep sep xs

/-- Concatenate strings (`''.join(l)`). -/
def joinAll (l : List String) : String := joinSep "" l

/-- The numeric value of a digit string (`int(needle)`). -/
def digitsToNat (cs : List Char) : Nat :=
  cs.foldl (fun n c => n * 10 + (c.toNat - 48)) 0

/-- Lower-case a string (`str.lower()`, ASCII). -/
def lowerStr (s : String) : String := (s.data.map Char.toLower).asString

/-- `TemplateTag.__str__`: `[name:idx:idx|fn|fn]`. -/
def tagToString (t : TemplateTag) : String :=
  "[" ++ t.name
      ++ joinAll (t.indices.map (fun i => ":" ++ i))
      ++ joinAll (t.functions.map (fun f => "|" ++ f))
      ++ "]"

/-- `str.isdigit()` on the needle, as used by `TemplateTag._GetIndex`. -/
def pyIsDigit (s : String) : Bool :=
  !s.data.isEmpty && s.data.all Char.isDigit

/-- Lookup in a modelled dict (`haystack[key]`). -/
def dictLookup (es : List (VKey × Value)) (k : VKey) : Option Value :=
  (es.find? (fun p => p.1 == k)).map Prod.snd

/-- Lookup in a replacements mapping. -/
def replLookup (repl : Repl) (k : String) : Option Value :=
  (repl.find? (fun p => p.1 == k)).map Prod.snd

/-- Set a key in a replacements mapping, Python-dict style: an existing key is
updated in place, a new key is appended. -/
def rset (repl : Repl) (k : String) (v : Value) : Repl :=
  if repl.any (fun p => p.1 == k) then
    repl.map (fun p => if p.1 == k then (k, v) else p)
  else
    repl ++ [(k, v)]

/-- `dict.update` with a list of pairs (used for loop alias unpacking). -/
def rupdate (repl : Repl) (kvs : List (String × Value)) : Repl :=
  kvs.foldl (fun acc p => rset acc p.1 p.2) repl

/-- `TemplateTag._GetIndex(haystack, needle)`: project one index step.
Digit needles first try sequence/numeric-key access and fall back to the digit
string as a dict key; other needles try keyed access and fall back to
attribute access (attributes are absent in the modelled value universe, so the
fallback raises).  `IndexError`/`KeyError`/`AttributeError` become
`TemplateKeyError` (`keyErr`); subscripting a non-subscriptable value with a
digit needle raises a raw `TypeError` that propagates. -/
def GetIndex (haystack : Value) (needle : String) : Except RErr Value :=
  if pyIsDigit needle then
    let n : Nat := digitsToNat needle.data
    match haystack with
    | .vlist xs =>
        match xs.get? n with
        | some x => .ok x
        | none => .error .keyErr
    | .vdict es =>
        match dictLookup es (.kint (Int.ofNat n)) with
        | some x => .ok x
        | none =>
            match dictLookup es (.kstr needle) with
            | some x => .ok x
            | none => .error .keyErr
    | .vstr s _ =>
        match s.data.get? n with
        | some c => .ok (.vstr (String.singleton c) none)
        | none => .error .keyErr
    | _ => .error .typeErr
  else
    match haystack with
    | .vdict es =>
        match dictLookup es (.kstr needle) with
        | some x => .ok x
        | none => .error .keyErr
    | _ => .error .keyErr

/-- The index-reduction loop inside `TemplateTag.GetValue`. -/
def reduceIndices (v : Value) (indices : List String) : Except RErr Value :=
  match indices with
  | [] => .ok v
  | i :: rest =>
      match GetIndex v i with
      | .ok v2 => reduceIndices v2 rest
      | .error e => .error e

/-- `TemplateTag.GetValue(replacements)`: look the tag name up (a missing name
raises `TemplateNameError`), then reduce the index chain. -/
def GetValue (t : TemplateTag) (repl : Repl) : Except RErr Value :=
  match replLookup repl t.name with
  | none => .error .nameErr
  | some v => reduceIndices v t.indices

/-- An ASCII single quote, used by the Python `repr` of strings. -/
def sq : String := String.singleton (Char.ofNat 39)

/-- `repr` of a dict key. -/
def keyRepr : VKey → String
  | .kint n => toString n
  | .kstr s => sq ++ s ++ sq

mutual

/-- Python `str()` on the modelled value universe. -/
def pyStr : Value → String
  | .vstr s _ => s
  | .vint n => toString n
  | .vbool b => if b then "True" else "False"
  | .vnone => "None"
  | .vlist xs =>
      "[" ++ joinSep ", " (pyReprList xs) ++ "]"
  | .vdict es =>
      "\x7b" ++ joinSep ", " (pyReprEntries es) ++ "\x7d"
termination_by v => (sizeOf v, 1)
decreasing_by
  all_goals apply Prod.Lex.left <;> simp <;> omega

/-- Python `repr()` on the modelled value universe (strings are quoted;
quote-escaping subtleties inside the string are not modelled). -/
def pyRepr : Value → String
  | .vstr s _ => sq ++ s ++ sq
  | v => pyStr v
termination_by v => (sizeOf v, 2)
decreasing_by
  apply Prod.Lex.right; omega

/-- `repr` of each list element, in order. -/
def pyReprList : List Value → List String
  | [] => []
  | v :: vs => pyRepr v :: pyReprList vs
termination_by xs => (sizeOf xs, 0)
decreasing_by
  · apply Prod.Lex.left <;> simp <;> omega
  · apply Prod.Lex.left <;> simp <;> omega

/-- `repr` of each dict entry, in order. -/
def pyReprEntries : List (VKey × Value) → List String
  | [] => []
  | (k, v) :: es => (keyRepr k ++ ": " ++ pyRepr v) :: pyReprEntries es
termination_by es => (sizeOf es, 0)
decreasing_by
  · apply Prod.Lex.left <;> simp <;> omega
  · apply Prod.Lex.left <;> simp <;> omega

end

/-- A dict key as the value Python yields when iterating the dict. -/
def keyValue : VKey → Value
  | .kint n => .vint n
  | .kstr s => .vstr s none

/-- `isinstance(value, Basesafestring)`. -/
def isSafe : Value → Bool
  | .vstr _ (some _) => true
  | _ => false

/-- HTML escaping.  Modelled from the spec: the `default`/`html` tag function
"HTML-escapes the value"; ampersand, angle brackets and double quote are
replaced by entities. -/
def htmlEscape (s : String) : String :=
  s.data.foldl
    (fun acc c =>
      acc ++ (match c with
              | '&' => "&amp;"
              | '<' => "&lt;"
              | '>' => "&gt;"
              | '\"' => "&quot;"
              | _ => String.singleton c))
    ""

/-- The `default` (and `html`) tag function, `lambda d: HTMLsafestring('') + d`.
Modelled from the spec: the safe-string library is not in the source tree;
concatenating an unsafe value onto an HTML-safe string escapes it and marks the
result HTML-safe, while an already-safe value is taken over without
re-escaping. -/
def fnDefault (v : Value) : Value :=
  match v with
  | .vstr s (some saf) => .vstr s (some saf)
  | _ => .vstr (htmlEscape (pyStr v)) (some .html)

/-- URL-query-argument escaping.  Modelled from the spec: `url` produces a
URL-query-safe string; unreserved ASCII characters pass through, everything
else is percent-encoded byte-wise (non-ASCII encoding is simplified to code
points). -/
def urlEscape (s : String) : String :=
  s.data.foldl
    (fun acc c =>
      if c.isAlphanum || c = '-' || c = '_' || c = '.' || c = '~' then
        acc ++ String.singleton c
      else
        acc ++ "%" ++ ((Nat.toDigits 16 c.toNat).map Char.toUpper).asString)
    ""

/-- Python `len()` on the modelled value universe (`none` models `TypeError`). -/
def pyLen : Value → Option Nat
  | .vstr s _ => some s.length
  | .vlist xs => some xs.length
  | .vdict es => some es.length
  | _ => none

/-- Python `iter()` on the modelled value universe: lists yield elements,
strings yield characters, dicts yield keys; `none` models `TypeError`. -/
def pyIterElems : Value → Option (List Value)
  | .vlist xs => some xs
  | .vstr s _ => some (s.data.map (fun c => .vstr (String.singleton c) none))
  | .vdict es => some (es.map (fun p => keyValue p.1))
  | _ => none

mutual

/-- Python `==` on the modelled value universe (`True == 1`, dict comparison is
order-insensitive). -/
def pyEqB (a b : Value) : Bool :=
  match a, b with
  | .vint x, .vint y => x == y
  | .vbool x, .vbool y => x == y
  | .vbool x, .vint y => (if x then (1 : Int) else 0) == y
  | .vint x, .vbool y => x == (if y then (1 : Int) else 0)
  | .vstr x _, .vstr y _ => x == y
  | .vnone, .vnone => true
  | .vlist xs, .vlist ys => pyEqList xs ys
  | .vdict xs, .vdict ys =>
      xs.length == ys.length && pyEqEntries xs ys
  | _, _ => false
termination_by (sizeOf a, 0)
decreasing_by
  all_goals apply Prod.Lex.left <;> simp <;> omega

/-- Elementwise Python `==` on lists. -/
def pyEqList : List Value → List Value → Bool
  | [], [] => true
  | x :: xs, y :: ys => pyEqB x y && pyEqList xs ys
  | _, _ => false
termination_by xs _ => (sizeOf xs, 1)
decreasing_by
  all_goals apply Prod.Lex.left <;> simp <;> omega

/-- Order-insensitive dict equality: each entry of the left dict must be
matched by key in the right dict. -/
def pyEqEntries : List (VKey × Value) → List (VKey × Value) → Bool
  | [], _ => true
  | (k, v) :: rest, ys =>
      (match dictLookup ys k with
       | some w => pyEqB v w
       | none => false) && pyEqEntries rest ys
termination_by xs _ => (sizeOf xs, 1)
decreasing_by
  all_goals apply Prod.Lex.left <;> simp <;> omega

end

/-- Python `<` restricted to scalars: numeric for ints/bools, lexicographic for
strings; anything else is a `TypeError` (list/tuple comparison is outside the
modelled fragment). -/
def pyLtB (a b : Value) : Except RErr Bool :=
  match a, b with
  | .vint x, .vint y => .ok (decide (x < y))
  | .vbool x, .vint y => .ok (decide ((if x then (1 : Int) else 0) < y))
  | .vint x, .vbool y => .ok (decide (x < (if y then (1 : Int) else 0)))
  | .vbool x, .vbool y => .ok (decide ((if x then (1 : Int) else 0) < (if y then 1 else 0)))
  | .vstr x _, .vstr y _ => .ok (decide (x < y))
  | _, _ => .error .typeErr

/-- Python truthiness: `0`, `False`, `''`, `[]`, `\x7b\x7d` and `None` are
false. -/
def pyTruthy : Value → Bool
  | .vstr s _ => !s.data.isEmpty
  | .vint n => n != 0
  | .vbool b => b
  | .vnone => false
  | .vlist xs => !xs.isEmpty
  | .vdict es => !es.isEmpty

/-- Insert a value into a list sorted by the given boolean `<`-comparator. -/
def insertSorted (ltB : Value → Value → Bool) (v : Value) : List Value → List Value
  | [] => [v]
  | x :: xs => if ltB v x then v :: x :: xs else x :: insertSorted ltB v xs

/-- Insertion sort with a boolean `<`-comparator (Python's `sorted` is stable;
insertion placing equal elements after existing ones preserves stability). -/
def sortValues (ltB : Value → Value → Bool) : List Value → List Value
  | [] => []
  | x :: xs => insertSorted ltB x (sortValues ltB xs)

/-- The `sorted` tag function: the value must be iterable and its elements
mutually comparable.  The modelled fragment sorts homogeneous lists of
ints/bools (numeric order) or strings (lexicographic); mixed or unordered
element types raise `TypeError`, as does a non-iterable value. -/
def fnSorted (v : Value) : Except RErr Value :=
  match pyIterElems v with
  | none => .error .typeErr
  | some xs =>
      if xs.all (fun x => match x with | .vint _ => true | .vbool _ => true | _ => false) then
        .ok (.vlist (sortValues
          (fun a b => match pyLtB a b with | .ok r => r | .error _ => false) xs))
      else if xs.all (fun x => match x with | .vstr _ _ => true | _ => false) then
        .ok (.vlist (sortValues
          (fun a b => match pyLtB a b with | .ok r => r | .error _ => false) xs))
      else
        .error .typeErr

/-- The module constant `TAG_FUNCTIONS`, as a partial lookup: `none` models a
missing dict key.  `default` and `html` are `lambda d: HTMLsafestring('') + d`,
`raw` the identity, `url` URL-query escaping, `items`/`values` the dict
accessors (raising `AttributeError` on non-dicts), `sorted` and `len` the
builtins. -/
def tagFunction? (name : String) : Option (Value → Except RErr Value) :=
  match name with
  | "default" => some (fun v => .ok (fnDefault v))
  | "html" => some (fun v => .ok (fnDefault v))
  | "raw" => some (fun v => .ok v)
  | "url" => some (fun v => .ok (.vstr (urlEscape (pyStr v)) (some .url)))
  | "items" => some (fun v =>
      match v with
      | .vdict es => .ok (.vlist (es.map (fun p => .vlist [keyValue p.1, p.2])))
      | _ => .error .attrErr)
  | "values" => some (fun v =>
      match v with
      | .vdict es => .ok (.vlist (es.map Prod.snd))
      | _ => .error .attrErr)
  | "sorted" => some fnSorted
  | "len" => some (fun v =>
      match pyLen v with
      | some n => .ok (.vint (Int.ofNat n))
      | none => .error .typeErr)
  | _ => none

/-- `TemplateTag.ApplyFunction` for a plain (non-closure) function name: the
function is looked up in `TAG_FUNCTIONS` (a missing name raises
`TemplateNameError`) and applied; a `TypeError` raised by the function is
re-raised as `TemplateTypeError` (both are `typeErr` here).  Function entries
written in closure form `f(args)` evaluate their argument list through the
host-language `eval`, which is outside the model; with the built-in registry
(whose entries are not factories) calling the factory form raises `TypeError`,
which is how closure-form entries are modelled. -/
def ApplyFunction (f : String) (v : Value) : Except RErr Value :=
  if f.data.contains '(' then .error .typeErr
  else
    match tagFunction? f with
    | none => .error .nameErr
    | some fn => fn v

/-- The function pipeline of `TemplateTag.Parse`, applied left to right. -/
def applyPipeline (fs : List String) (v : Value) : Except RErr Value :=
  match fs with
  | [] => .ok v
  | f :: rest =>
      match ApplyFunction f v with
      | .ok v2 => applyPipeline rest v2
      | .error e => .error e

/-- `TemplateTag.Parse(**kwds)`: resolve the tag; a `TemplateKeyError` or
`TemplateNameError` is recovered by returning the tag's literal text.  With
functions listed they are applied in order; otherwise the `default` function
is applied unless the value is already a safe string.  The final value is
turned into a string. -/
def TagParse (t : TemplateTag) (repl : Repl) : Except RErr String :=
  match GetValue t repl with
  | .error .nameErr => .ok (tagToString t)
  | .error .keyErr => .ok (tagToString t)
  | .error e => .error e
  | .ok v =>
      if t.functions.isEmpty then
        if isSafe v then .ok (pyStr v) else .ok (pyStr (fnDefault v))
      else
        match applyPipeline t.functions v with
        | .ok v2 => .ok (pyStr v2)
        | .error e => .error e

/-- The function applications in `TemplateTag.Iterator`: raw
`TAG_FUNCTIONS[func](value)` lookups, so an unknown function raises a raw
`KeyError` rather than `TemplateNameError`. -/
def applyPipelineRaw (fs : List String) (v : Value) : Except RErr Value :=
  match fs with
  | [] => .ok v
  | f :: rest =>
      match tagFunction? f with
      | none => .error .pyKeyErr
      | some fn =>
          match fn v with
          | .ok v2 => applyPipelineRaw rest v2
          | .error e => .error e

/-- `TemplateTag.Iterator(**kwds)`: resolve the tag; a `TemplateKeyError`
yields an empty iterator, any other resolution error (in particular
`TemplateNameError` for a missing name) propagates.  The tag's functions are
then applied and the result is iterated. -/
def TagIterator (t : TemplateTag) (repl : Repl) : Except RErr (List Value) :=
  match GetValue t repl with
  | .error .keyErr => .ok []
  | .error e => .error e
  | .ok v =>
      match applyPipelineRaw t.functions v with
      | .error e => .error e
      | .ok v2 =>
          match pyIterElems v2 with
          | some xs => .ok xs
          | none => .error .typeErr

/-! ### The tag lexer (`TemplateTag.TAG` / `Template.TAG` regular expression) -/

/-- A `\w` character: alphanumeric or underscore. -/
def isWordChar (c : Char) : Bool := c.isAlphanum || c = '_'

/-- A `[\w-]` character: index and function-name characters. -/
def isIdxChar (c : Char) : Bool := isWordChar c || c = '-'

/-- The `(?:(?::[\w-]+)+)?` indices group: repeatedly consume `:`-prefixed
index runs; a colon followed by an empty run terminates the group (the regex
backtracks to fewer repetitions there).  Each iteration consumes at least two
characters, so `fuel = cs.length` always suffices. -/
def parseIndices (fuel : Nat) (cs : List Char) : List String × List Char :=
  match fuel with
  | 0 => ([], cs)
  | fuel + 1 =>
      match cs with
      | ':' :: rest =>
          let p := rest.span isIdxChar
          if p.1.isEmpty then ([], cs)
          else
            let q := parseIndices fuel p.2
            (p.1.asString :: q.1, q.2)
      | _ => ([], cs)

/-- The `(?:(?:\|[\w-]+(?:\([^()]*?\))?)+)?` functions group: repeatedly
consume `|`-prefixed function names with optional `( ... )` closure arguments
(non-greedy up to the first `)`; a parenthesis that does not close is left
unconsumed, as the regex drops the optional closure there).  The captured
strings keep the closure suffix, as `TemplateTag.FUNC_FINDER` captures it. -/
def parseFunctions (fuel : Nat) (cs : List Char) : List String × List Char :=
  match fuel with
  | 0 => ([], cs)
  | fuel + 1 =>
      match cs with
      | '|' :: rest =>
          let p := rest.span isIdxChar
          if p.1.isEmpty then ([], cs)
          else
            match p.2 with
            | '(' :: rest2 =>
                let q := rest2.span (fun c => c ≠ '(' && c ≠ ')')
                match q.2 with
                | ')' :: rest3 =>
                    let r := parseFunctions fuel rest3
                    ((p.1.asString ++ "(" ++ q.1.asString ++ ")") :: r.1, r.2)
                | _ =>
                    let r := parseFunctions fuel p.2
                    (p.1.asString :: r.1, r.2)
            | _ =>
                let r := parseFunctions fuel p.2
                (p.1.asString :: r.1, r.2)
      | _ => ([], cs)

/-- Match the `TAG` regular expression at the start of the character list,
returning the parsed tag and the unconsumed rest. -/
def matchTag (cs : List Char) : Option (TemplateTag × List Char) :=
  match cs with
  | '[' :: rest =>
      let nm := rest.span isWordChar
      if nm.1.isEmpty then none
      else
        let idx := parseIndices nm.2.length nm.2
        let fns := parseFunctions idx.2.length idx.2
        match fns.2 with
        | ']' :: rest2 => some (⟨nm.1.asString, idx.1, fns.1⟩, rest2)
        | _ => none
  | _ => none

/-- `TemplateTag.FromString`: `TAG.match` is anchored at the start of the
string and ignores trailing characters; no match raises
`TemplateSyntaxError` (modelled by `none`). -/
def TagFromString (s : String) : Option TemplateTag :=
  (matchTag s.data).map Prod.fst

/-- A token of a `Template.TagSplit` result: a raw text piece
(`TemplateText`) or a tag (`TemplateTag`).  These tokens are both the member
nodes added to a scope for plain text and the tokenised conditional
expressions. -/
inductive ExprTok where
  | txt (s : String)
  | etag (t : TemplateTag)
deriving DecidableEq, Repr

/-- The scanning loop behind `Template.TagSplit`: find each leftmost `TAG`
match, yielding the interleaved (non-empty) text pieces and tags.  Each step
consumes at least one character, so `fuel = cs.length` suffices. -/
def tagScan (fuel : Nat) (pending : List Char) (cs : List Char) : List ExprTok :=
  match fuel with
  | 0 =>
      if (pending ++ cs).isEmpty then [] else [.txt (pending ++ cs).asString]
  | fuel + 1 =>
      match cs with
      | [] => if pending.isEmpty then [] else [.txt pending.asString]
      | c :: rest =>
          if c = '[' then
            match matchTag cs with
            | some (t, rest2) =>
                (if pending.isEmpty then [] else [.txt pending.asString])
                  ++ .etag t :: tagScan fuel [] rest2
            | none => tagScan fuel (pending ++ [c]) rest
          else
            tagScan fuel (pending ++ [c]) rest

/-- `Template.TagSplit(template)` as a token list; empty text pieces are
skipped, exactly as the generator skips falsy text nodes. -/
def TagSplit (s : String) : List ExprTok :=
  tagScan (s.length + 1) [] s.data

/-! ### The conditional-expression evaluator

`TemplateConditional.Expression` substitutes `__tmpl_var_<i>` placeholders for
the tag tokens of the expression, joins the remaining text verbatim and hands
the string to the host language's `eval` with a `LazyTagValueRetrieval`
mapping, so that tag values are only retrieved when the evaluation of the
expression actually touches the corresponding variable.  `eval` itself is the
host language; it is modelled here for the expression fragment the engine is
specified over: parentheses, `and`/`or`/`not`, the comparisons
`==  !=  <  <=  >  >=`, integer and quoted-string literals, `True`, `False`,
`None`, and names.  Evaluation follows Python: `and`/`or` return an operand
value and short-circuit, a name that is not a placeholder raises `NameError`
(which `Expression` converts to `TemplateNameError`), and anything outside
the fragment is a syntax error. -/

/-- Comparison operators of the modelled expression fragment. -/
inductive CmpOp where
  | ceq
  | cne
  | clt
  | cle
  | cgt
  | cge
deriving DecidableEq, Repr

/-- Lexemes of the modelled expression fragment. -/
inductive Lexeme where
  | lparen
  | rparen
  | landK
  | lorK
  | lnotK
  | lcmp (op : CmpOp)
  | lint (n : Nat)
  | lstrLit (s : String)
  | lname (s : String)
deriving DecidableEq, Repr

/-- Lex the joined expression string; `none` models `SyntaxError`.  Each step
consumes at least one character, so `fuel = cs.length` suffices. -/
def lexExpr (fuel : Nat) (cs : List Char) : Option (List Lexeme) :=
  match fuel with
  | 0 => (if cs.isEmpty then some [] else none)
  | fuel + 1 =>
      match cs with
      | [] => some []
      | c :: rest =>
          if c = ' ' || c = '\t' || c = '\n' || c = '\r' then lexExpr fuel rest
          else if c = '(' then (lexExpr fuel rest).map (.lparen :: ·)
          else if c = ')' then (lexExpr fuel rest).map (.rparen :: ·)
          else if c = '=' then
            match rest with
            | '=' :: rest2 => (lexExpr fuel rest2).map (.lcmp .ceq :: ·)
            | _ => none
          else if c = '!' then
            match rest with
            | '=' :: rest2 => (lexExpr fuel rest2).map (.lcmp .cne :: ·)
            | _ => none
          else if c = '<' then
            match rest with
            | '=' :: rest2 => (lexExpr fuel rest2).map (.lcmp .cle :: ·)
            | _ => (lexExpr fuel rest).map (.lcmp .clt :: ·)
          else if c = '>' then
            match rest with
            | '=' :: rest2 => (lexExpr fuel rest2).map (.lcmp .cge :: ·)
            | _ => (lexExpr fuel rest).map (.lcmp .cgt :: ·)
          else if c.isDigit then
            let p := cs.span Char.isDigit
            (lexExpr fuel p.2).map (.lint (digitsToNat p.1) :: ·)
          else if c = '\"' || c = Char.ofNat 39 then
            let p := rest.span (fun d => d ≠ c)
            match p.2 with
            | _ :: rest2 => (lexExpr fuel rest2).map (.lstrLit p.1.asString :: ·)
            | [] => none
          else if c.isAlpha || c = '_' then
            let p := cs.span isWordChar
            let w := p.1.asString
            let tok : Lexeme :=
              if w = "and" then .landK
              else if w = "or" then .lorK
              else if w = "not" then .lnotK
              else .lname w
            (lexExpr fuel p.2).map (tok :: ·)
          else none

/-- Abstract syntax of the modelled expression fragment. -/
inductive PE where
  | pname (s : String)
  | plit (v : Value)
  | pand (a b : PE)
  | por (a b : PE)
  | pnot (a : PE)
  | pcmp (op : CmpOp) (a b : PE)
deriving Repr

mutual

/-- `or`-level of the recursive-descent parser. -/
def parseOr : Nat → List Lexeme → Option (PE × List Lexeme)
  | 0, _ => none
  | fuel + 1, toks =>
      match parseAnd fuel toks with
      | none => none
      | some (a, rest) => parseOrRest fuel a rest

/-- Left-folded `or` continuation. -/
def parseOrRest : Nat → PE → List Lexeme → Option (PE × List Lexeme)
  | 0, _, _ => none
  | fuel + 1, a, toks =>
      match toks with
      | .lorK :: rest =>
          match parseAnd fuel rest with
          | none => none
          | some (b, rest2) => parseOrRest fuel (.por a b) rest2
      | _ => some (a, toks)

/-- `and`-level of the recursive-descent parser. -/
def parseAnd : Nat → List Lexeme → Option (PE × List Lexeme)
  | 0, _ => none
  | fuel + 1, toks =>
      match parseNot fuel toks with
      | none => none
      | some (a, rest) => parseAndRest fuel a rest

/-- Left-folded `and` continuation. -/
def parseAndRest : Nat → PE → List Lexeme → Option (PE × List Lexeme)
  | 0, _, _ => none
  | fuel + 1, a, toks =>
      match toks with
      | .landK :: rest =>
          match parseNot fuel rest with
          | none => none
          | some (b, rest2) => parseAndRest fuel (.pand a b) rest2
      | _ => some (a, toks)

/-- `not`-level of the recursive-descent parser. -/
def parseNot : Nat → List Lexeme → Option (PE × List Lexeme)
  | 0, _ => none
  | fuel + 1, toks =>
      match toks with
      | .lnotK :: rest =>
          match parseNot fuel rest with
          | none => none
          | some (a, rest2) => some (.pnot a, rest2)
      | _ => parseCmp fuel toks

/-- Comparison level: an atom optionally followed by one comparison (chained
comparisons are outside the modelled fragment). -/
def parseCmp : Nat → List Lexeme → Option (PE × List Lexeme)
  | 0, _ => none
  | fuel + 1, toks =>
      match parseAtom fuel toks with
      | none => none
      | some (a, rest) =>
          match rest with
          | .lcmp op :: rest2 =>
              match parseAtom fuel rest2 with
              | none => none
              | some (b, rest3) => some (.pcmp op a b, rest3)
          | _ => some (a, rest)

/-- Atoms: literals, names (`True`/`False`/`None` become literals) and
parenthesised expressions. -/
def parseAtom : Nat → List Lexeme → Option (PE × List Lexeme)
  | 0, _ => none
  | fuel + 1, toks =>
      match toks with
      | .lint n :: rest => some (.plit (.vint (Int.ofNat n)), rest)
      | .lstrLit s :: rest => some (.plit (.vstr s none), rest)
      | .lname s :: rest =>
          if s = "True" then some (.plit (.vbool true), rest)
          else if s = "False" then some (.plit (.vbool false), rest)
          else if s = "None" then some (.plit .vnone, rest)
          else some (.pname s, rest)
      | .lparen :: rest =>
          match parseOr fuel rest with
          | none => none
          | some (a, rest2) =>
              match rest2 with
              | .rparen :: rest3 => some (a, rest3)
              | _ => none
      | _ => none

end

/-- Parse a full expression; leftover lexemes are a syntax error. -/
def parseExpr (toks : List Lexeme) : Option PE :=
  match parseOr (5 * (toks.length + 1)) toks with
  | some (pe, []) => some pe
  | _ => none

/-- Python comparison evaluation on resolved operand values. -/
def pyCompare (op : CmpOp) (a b : Value) : Except RErr Value :=
  match op with
  | .ceq => .ok (.vbool (pyEqB a b))
  | .cne => .ok (.vbool (!pyEqB a b))
  | .clt => (pyLtB a b).map Value.vbool
  | .cgt => (pyLtB b a).map Value.vbool
  | .cle => (pyLtB b a).map (fun r => Value.vbool (!r))
  | .cge => (pyLtB a b).map (fun r => Value.vbool (!r))

/-- Evaluate the modelled expression fragment with Python semantics.  The
environment maps the `__tmpl_var_<i>` placeholders to their tags; looking a
placeholder up retrieves the tag value lazily via `GetValue`
(`LazyTagValueRetrieval.__getitem__`), and only when the evaluation reaches
the placeholder.  `and`/`or` return operand values and short-circuit; a name
that is no placeholder raises `NameError`, converted by
`TemplateConditional.Expression` into `TemplateNameError`. -/
def pyEvalPE (env : List (String × TemplateTag)) (repl : Repl) : PE → Except RErr Value
  | .pname s =>
      match (env.find? (fun p => p.1 == s)).map Prod.snd with
      | some t => GetValue t repl
      | none => .error .nameErr
  | .plit v => .ok v
  | .pand a b =>
      match pyEvalPE env repl a with
      | .error e => .error e
      | .ok va => if pyTruthy va then pyEvalPE env repl b else .ok va
  | .por a b =>
      match pyEvalPE env repl a with
      | .error e => .error e
      | .ok va => if pyTruthy va then .ok va else pyEvalPE env repl b
  | .pnot a =>
      match pyEvalPE env repl a with
      | .error e => .error e
      | .ok va => .ok (.vbool (!pyTruthy va))
  | .pcmp op a b =>
      match pyEvalPE env repl a with
      | .error e => .error e
      | .ok va =>
          match pyEvalPE env repl b with
          | .error e => .error e
          | .ok vb => pyCompare op va vb

/-- Placeholder name for the tag at position `i` of the token list. -/
def exprPlaceholder (i : Nat) : String := "__tmpl_var_" ++ toString i

/-- The `local_vars` environment built by `TemplateConditional.Expression`. -/
def condExprEnv (toks : List ExprTok) : List (String × TemplateTag) :=
  (toks.mapIdx (fun i tok =>
      match tok with
      | .etag t => some (exprPlaceholder i, t)
      | .txt _ => none)).filterMap id

/-- The joined source string handed to `eval`: text tokens verbatim,
tag tokens replaced by their placeholder names. -/
def condExprJoined (toks : List ExprTok) : String :=
  joinAll (toks.mapIdx (fun i tok =>
      match tok with
      | .etag _ => exprPlaceholder i
      | .txt s => s))

/-- `TemplateConditional.Expression(expr, **kwds)`. -/
def condExpression (toks : List ExprTok) (repl : Repl) : Except RErr Value :=
  let joined := condExprJoined toks
  match lexExpr (joined.length + 1) joined.data with
  | none => .error .synErr
  | some lexs =>
      match parseExpr lexs with
      | none => .error .synErr
      | some pe => pyEvalPE (condExprEnv toks) repl pe

/-! ### The node tree -/

/-- A compiled template node.

* `text` is a `TemplateText`.
* `tagNode` is a `TemplateTag`.
* `loopNode` is a `TemplateLoop` with its source tag, aliases and body.
* `condNode` is a `TemplateConditional`: branches of (tokenised expression,
  body) plus the optional `else` body (`default`).
* `presNode` is a `TemplateConditionalPresence`.  Its branches hold the raw
  whitespace-split argument tokens: the source wraps them in a lazy
  `map(TemplateTag.FromString, tags.split())`, so the strings are only parsed
  into tags at render time (modelled re-iterably, i.e. with the contents the
  one-shot iterator yields on its first traversal).  The `checking_presence`
  field mirrors the constructor argument of the source class, which stores it
  on the instance; note that `ifpresent` relies on the default (`True`) and
  `ifnotpresent` passes `True` explicitly, and that no method ever reads the
  attribute again. -/
inductive Node where
  | text (s : String)
  | tagNode (t : TemplateTag)
  | loopNode (tag : TemplateTag) (aliases : List String) (body : List Node)
  | condNode (branches : List (List ExprTok × List Node)) (dflt : Option (List Node))
  | presNode (checking_presence : Bool) (branches : List (List String × List Node))
      (dflt : Option (List Node))
deriving Repr

/-- `TemplateConditionalPresence.Expression(tags, **kwds)`: parse each token
into a tag (`TemplateSyntaxError` propagates) and try `GetValue`; the first
`TemplateKeyError`/`TemplateNameError` answers with the inverse of the
`checking_presence` entry of the replacements, full success answers with
that entry itself.  Any other resolution error propagates. -/
def presExprGo (checking : Bool) (repl : Repl) : List String → Except RErr Bool
  | [] => .ok checking
  | s :: rest =>
      match TagFromString s with
      | none => .error .synErr
      | some t =>
          match GetValue t repl with
          | .ok _ => presExprGo checking repl rest
          | .error .nameErr => .ok (!checking)
          | .error .keyErr => .ok (!checking)
          | .error e => .error e

/-- `TemplateConditionalPresence.Expression(tags, **kwds)` proper: determine
the `checking_presence` truthiness from the replacements and run the loop. -/
def presExpression (tagstrs : List String) (repl : Repl) : Except RErr Bool :=
  presExprGo
    (match replLookup repl "checking_presence" with
     | some v => pyTruthy v
     | none => false)
    repl tagstrs

/-- `TemplateLoop.Parse`'s per-item alias binding: a single alias is bound
directly; with several aliases the item is unpacked — a missing `len`
(`TypeError`) or a length mismatch raise `TemplateValueError` — and the
aliases are zipped with the item's iteration order. -/
def bindAliases (aliases : List String) (item : Value) (repl : Repl) :
    Except RErr Repl :=
  if aliases.length == 1 then
    .ok (rset repl (aliases.headD "") item)
  else
    match pyLen item with
    | none => .error .valueErr
    | some L =>
        if L == aliases.length then
          match pyIterElems item with
          | some elems => .ok (rupdate repl (aliases.zip elems))
          | none => .error .valueErr
        else
          .error .valueErr

mutual

/-- Render one node against a replacements mapping.

* `TemplateText.Parse` returns the text.
* `TemplateTag.Parse` is `TagParse`.
* `TemplateLoop.Parse` obtains the iterator and renders the body once per
  item with the alias bindings applied to a copy of the mapping that is
  threaded through the iterations.
* `TemplateConditional.Parse` renders the first branch whose expression is
  truthy, else the `default` body when it is non-empty (`if self.default:`),
  else the empty string.  For a `TemplateConditionalPresence` the same code
  first sets `kwds['checking_presence'] = True` (a hard-coded `True`,
  regardless of the instance's `checking_presence` attribute), which the
  branch bodies then also see. -/
def NodeParse : Node → Repl → Except RErr String
  | .text s, _ => .ok s
  | .tagNode t, repl => TagParse t repl
  | .loopNode tag aliases body, repl =>
      match TagIterator tag repl with
      | .error e => .error e
      | .ok items => LoopItems body aliases items repl
  | .condNode branches dflt, repl =>
      match CondBranches branches repl with
      | .error e => .error e
      | .ok (some s) => .ok s
      | .ok none =>
          match dflt with
          | some (n :: ns) => NodesParse (n :: ns) repl
          | _ => .ok ""
  | .presNode _ branches dflt, repl =>
      match branches with
      | [] =>
          match dflt with
          | some (n :: ns) => NodesParse (n :: ns) repl
          | _ => .ok ""
      | b :: bs =>
          let repl2 := rset repl "checking_presence" (.vbool true)
          match PresBranches (b :: bs) repl2 with
          | .error e => .error e
          | .ok (some s) => .ok s
          | .ok none =>
              match dflt with
              | some (n :: ns) => NodesParse (n :: ns) repl2
              | _ => .ok ""
termination_by n _ => (sizeOf n, 0)
decreasing_by
  all_goals apply Prod.Lex.left <;> simp <;> omega

/-- `''.join(tag.Parse(**kwds) for tag in nodes)`: render each node in order,
propagating the first error. -/
def NodesParse : List Node → Repl → Except RErr String
  | [], _ => .ok ""
  | n :: ns, repl =>
      match NodeParse n repl with
      | .error e => .error e
      | .ok s =>
          match NodesParse ns repl with
          | .error e => .error e
          | .ok s2 => .ok (s ++ s2)
termination_by ns _ => (sizeOf ns, 0)
decreasing_by
  all_goals apply Prod.Lex.left <;> simp <;> omega

/-- The branch loop of `TemplateConditional.Parse`: evaluate each branch
expression in order and render the first truthy branch's body. -/
def CondBranches : List (List ExprTok × List Node) → Repl → Except RErr (Option String)
  | [], _ => .ok none
  | (toks, body) :: rest, repl =>
      match condExpression toks repl with
      | .error e => .error e
      | .ok v =>
          if pyTruthy v then
            match NodesParse body repl with
            | .error e => .error e
            | .ok s => .ok (some s)
          else
            CondBranches rest repl
termination_by bs _ => (sizeOf bs, 0)
decreasing_by
  all_goals apply Prod.Lex.left <;> simp <;> omega

/-- The branch loop of `TemplateConditional.Parse` for presence branches. -/
def PresBranches : List (List String × List Node) → Repl → Except RErr (Option String)
  | [], _ => .ok none
  | (tagstrs, body) :: rest, repl =>
      match presExpression tagstrs repl with
      | .error e => .error e
      | .ok b =>
          if b then
            match NodesParse body repl with
            | .error e => .error e
            | .ok s => .ok (some s)
          else
            PresBranches rest repl
termination_by bs _ => (sizeOf bs, 0)
decreasing_by
  all_goals apply Prod.Lex.left <;> simp <;> omega

/-- The item loop of `TemplateLoop.Parse`: bind the aliases for each item on
the threaded copy of the replacements, render the body, and concatenate. -/
def LoopItems : List Node → List String → List Value → Repl → Except RErr String
  | _, _, [], _ => .ok ""
  | body, aliases, item :: rest, repl =>
      match bindAliases aliases item repl with
      | .error e => .error e
      | .ok repl2 =>
          match NodesParse body repl2 with
          | .error e => .error e
          | .ok s =>
              match LoopItems body aliases rest repl2 with
              | .error e => .error e
              | .ok s2 => .ok (s ++ s2)
termination_by body _ items _ => (sizeOf body, items.length + 1)
decreasing_by
  · apply Prod.Lex.right <;> simp <;> omega
  · apply Prod.Lex.right <;> simp

end

/-! ### String reconstruction (`__str__` of the node classes)

`Template.__str__` joins `str(node)` over its members.  A *plain*
conditional's branch expressions are tuples and re-iterable, so its `str()`
is a pure function of the node.  A *presence* conditional's branch
expressions are one-shot `map(TemplateTag.FromString, tags.split())`
iterators: traversing them parses each stored token (an unparseable token
raises `TemplateSyntaxError`) and consumes them, so after a render `str()`
yields only the remainders the render left behind — mutable state a pure
function of the node cannot express.  The reconstruction below is `str()` on
a template whose iterators are still unconsumed (it parses every stored
token and propagates the `TemplateSyntaxError` a traversal would raise);
everything that digests it — the `page_hash` of no-parse mode runs `str()`
*after* the render — is therefore restricted to presence-free templates
(`presFree`), on which the reconstruction is exact. -/

/-- The opening directive braces. -/
def obr : String := "\x7b\x7b"

/-- The closing directive braces. -/
def cbr : String := "\x7d\x7d"

/-- `''.join(map(str, expr))` over a tokenised plain-conditional expression
(a tuple in the source, safely re-iterable). -/
def exprTokensStr (toks : List ExprTok) : String :=
  joinAll (toks.map (fun tok =>
    match tok with
    | .txt s => s
    | .etag t => tagToString t))

/-- `''.join(map(str, expr))` over a presence branch's lazy tag map, before
anything has consumed it: each stored token is parsed by
`TemplateTag.FromString` as the traversal reaches it, and an unparseable
token raises `TemplateSyntaxError`. -/
def presExprStrE : List String → Except RErr String
  | [] => .ok ""
  | s :: rest =>
      match TagFromString s with
      | none => .error .synErr
      | some t =>
          match presExprStrE rest with
          | .error e => .error e
          | .ok r => .ok (tagToString t ++ r)

mutual

/-- `str(node)` for each node class, on a template whose presence-branch
iterators are unconsumed. -/
def nodeToStringE : Node → Except RErr String
  | .text s => .ok s
  | .tagNode t => .ok (tagToString t)
  | .loopNode tag aliases body =>
      match nodesToStringE body with
      | .error e => .error e
      | .ok bs =>
          .ok ("\n" ++ obr ++ " for " ++ joinSep ", " aliases ++ " in "
            ++ tagToString tag ++ " " ++ cbr ++ bs
            ++ "\n" ++ obr ++ " endfor " ++ cbr)
  | .condNode branches dflt =>
      match condBranchStrsE true branches with
      | .error e => .error e
      | .ok bstrs =>
          match elseStrE dflt with
          | .error e => .error e
          | .ok estrs =>
              .ok ("\n" ++ joinSep "\n" (bstrs ++ estrs ++ [obr ++ " endif " ++ cbr]))
  | .presNode _ branches dflt =>
      match presBranchStrsE true branches with
      | .error e => .error e
      | .ok bstrs =>
          match elseStrE dflt with
          | .error e => .error e
          | .ok estrs =>
              .ok ("\n" ++ joinSep "\n" (bstrs ++ estrs ++ [obr ++ " endif " ++ cbr]))
termination_by n => (sizeOf n, 0)
decreasing_by
  all_goals apply Prod.Lex.left <;> simp <;> omega

/-- `''.join(map(str, nodes))`. -/
def nodesToStringE : List Node → Except RErr String
  | [] => .ok ""
  | n :: ns =>
      match nodeToStringE n with
      | .error e => .error e
      | .ok s =>
          match nodesToStringE ns with
          | .error e => .error e
          | .ok s2 => .ok (s ++ s2)
termination_by ns => (sizeOf ns, 0)
decreasing_by
  all_goals apply Prod.Lex.left <;> simp <;> omega

/-- The per-branch strings of `TemplateConditional.__str__` (first clause
`if`, later clauses `elif`). -/
def condBranchStrsE : Bool → List (List ExprTok × List Node) → Except RErr (List String)
  | _, [] => .ok []
  | isFirst, (toks, body) :: rest =>
      match nodesToStringE body with
      | .error e => .error e
      | .ok bodyStr =>
          match condBranchStrsE false rest with
          | .error e => .error e
          | .ok rs =>
              .ok ((obr ++ " " ++ (if isFirst then "if" else "elif") ++ " "
                ++ exprTokensStr toks ++ " " ++ cbr ++ bodyStr) :: rs)
termination_by _ bs => (sizeOf bs, 0)
decreasing_by
  all_goals apply Prod.Lex.left <;> simp <;> omega

/-- The per-branch strings for presence branches: the expression traversal
(which can raise on an unparseable token) runs before the body `str()`, as
the `%`-formatting evaluates its arguments left to right. -/
def presBranchStrsE : Bool → List (List String × List Node) → Except RErr (List String)
  | _, [] => .ok []
  | isFirst, (tagstrs, body) :: rest =>
      match presExprStrE tagstrs with
      | .error e => .error e
      | .ok exprStr =>
          match nodesToStringE body with
          | .error e => .error e
          | .ok bodyStr =>
              match presBranchStrsE false rest with
              | .error e => .error e
              | .ok rs =>
                  .ok ((obr ++ " " ++ (if isFirst then "if" else "elif") ++ " "
                    ++ exprStr ++ " " ++ cbr ++ bodyStr) :: rs)
termination_by _ bs => (sizeOf bs, 0)
decreasing_by
  all_goals apply Prod.Lex.left <;> simp <;> omega

/-- The optional `{\x7b else \x7d}` part: printed only for a truthy
(non-empty, non-`None`) `default`. -/
def elseStrE : Option (List Node) → Except RErr (List String)
  | some (n :: ns) =>
      match nodesToStringE (n :: ns) with
      | .error e => .error e
      | .ok s => .ok [obr ++ " else " ++ cbr ++ s]
  | _ => .ok []
termination_by d => (sizeOf d, 0)
decreasing_by
  all_goals apply Prod.Lex.left <;> simp <;> omega

end

mutual

/-- No presence conditional anywhere in the node: on such nodes `str()` has
no one-shot iterators, so the reconstruction above is exact also after a
render. -/
def presFreeNode : Node → Bool
  | .text _ => true
  | .tagNode _ => true
  | .loopNode _ _ body => presFree body
  | .condNode branches dflt => presFreeBranches branches && presFreeOpt dflt
  | .presNode _ _ _ => false
termination_by n => (sizeOf n, 0)
decreasing_by
  all_goals apply Prod.Lex.left <;> simp <;> omega

/-- `presFreeNode` over a node list. -/
def presFree : List Node → Bool
  | [] => true
  | n :: ns => presFreeNode n && presFree ns
termination_by ns => (sizeOf ns, 0)
decreasing_by
  all_goals apply Prod.Lex.left <;> simp <;> omega

/-- `presFreeNode` over conditional branches. -/
def presFreeBranches : List (List ExprTok × List Node) → Bool
  | [] => true
  | (_, body) :: rest => presFree body && presFreeBranches rest
termination_by bs => (sizeOf bs, 0)
decreasing_by
  all_goals apply Prod.Lex.left <;> simp <;> omega

/-- `presFreeNode` over an optional `else` body. -/
def presFreeOpt : Option (List Node) → Bool
  | none => true
  | some ns => presFree ns
termination_by d => (sizeOf d, 0)
decreasing_by
  all_goals apply Prod.Lex.left <;> simp <;> omega

end

/-! ### No-parse mode (`Template.Parse` with `parser.noparse`) -/

/-- The tags of a tokenised conditional expression, in order. -/
def condExprTags (toks : List ExprTok) : List TemplateTag :=
  toks.filterMap (fun tok =>
    match tok with
    | .etag t => some t
    | .txt _ => none)

/-- The `TemplateTag` members among the direct children of a branch body
(nested loops and conditionals are not descended into: the source only
checks `isinstance(branch_tag, TemplateTag)` on the flattened elements). -/
def bodyTags (body : List Node) : List TemplateTag :=
  body.filterMap (fun n =>
    match n with
    | .tagNode t => some t
    | _ => none)

/-- The tags visited for one plain conditional:
`itertools.chain(*tag.branches)` yields each branch's expression tuple and
body list alternately, so the expression tags and the direct body tags of
every branch are visited — the `else` body (`default`) is not part of
`branches` and is skipped. -/
def condChainTags (branches : List (List ExprTok × List Node)) : List TemplateTag :=
  branches.flatMap (fun b => condExprTags b.1 ++ bodyTags b.2)

/-- The tags visited for one presence conditional.  Its branch expressions
are one-shot `map` iterators that the full render preceding the collection
has already consumed, so only the direct body tags remain. -/
def presChainTags (branches : List (List String × List Node)) : List TemplateTag :=
  branches.flatMap (fun b => bodyTags b.2)

/-- `htmlsafe.tags[str(tag)] = value`, dict-style update. -/
def sset (acc : List (String × String)) (k v : String) : List (String × String) :=
  if acc.any (fun p => p.1 == k) then
    acc.map (fun p => if p.1 == k then (k, v) else p)
  else
    acc ++ [(k, v)]

/-- Render a list of tags into the collection mapping. -/
def collectInto (repl : Repl) (m : List (String × String)) (ts : List TemplateTag) :
    Except RErr (List (String × String)) :=
  ts.foldl
    (fun acc t =>
      match acc with
      | .error e => .error e
      | .ok m2 =>
          match TagParse t repl with
          | .error e => .error e
          | .ok s => .ok (sset m2 (tagToString t) s))
    (.ok m)

/-- The tag-collection loop of `Template.Parse` in no-parse mode: walk the
top-level nodes; for each conditional visit its chained branch tags, and take
each top-level `TemplateTag` itself.  Loops, nested structures and `else`
bodies are not visited. -/
def CollectTags (nodes : List Node) (repl : Repl) :
    Except RErr (List (String × String)) :=
  nodes.foldl
    (fun acc n =>
      match acc with
      | .error e => .error e
      | .ok m =>
          match n with
          | .condNode bs _ => collectInto repl m (condChainTags bs)
          | .presNode _ bs _ => collectInto repl m (presChainTags bs)
          | .tagNode t => collectInto repl m [t]
          | _ => .ok m)
    (.ok [])

/-- The structure returned for a file-backed template in no-parse mode
(minus the template name, which is the base name of the backing file). -/
structure NoParseResult where
  replacements : List (String × String)
  content_hash : String
  page_hash : String
deriving Repr

/-- `Template.Parse` in no-parse mode, parametric in the digest function the
source instantiates with MD5.  In source order: render the template and
digest the output into `content_hash`; digest `HTMLsafestring(self)` — the
template's string reconstruction, whose `str()` can itself raise — into
`page_hash`; then collect the visited tags.  The reconstruction of a
presence conditional at this point depends on how much of its one-shot
branch iterators the render just consumed, mutable state this pure embedding
does not track, so the modelled fragment is the presence-free templates;
outside it the function returns `none`. -/
def TemplateNoParse (digest : String → String) (nodes : List Node) (repl : Repl) :
    Option (Except RErr NoParseResult) :=
  if presFree nodes then
    some (
      match NodesParse nodes repl with
      | .error e => .error e
      | .ok rendered =>
          match nodesToStringE nodes with
          | .error e => .error e
          | .ok pageStr =>
              match CollectTags nodes repl with
              | .error e => .error e
              | .ok tags => .ok ⟨tags, digest rendered, digest pageStr⟩)
  else none

/-! ### Compilation (`Template.AddString` and the scope stack)

`AddString` splits the raw template on the `FUNCTION` regular expression into
alternating text and directive chunks; the chunk list is the embedding's
input.  A directive chunk carries its whitespace-split words
(`nodes = nodes.split()`); `{\x7b ... \x7d}`-lexing itself is not re-modelled.
The `{\x7b inline \x7d}` directive needs the parser/template-cache attached to
the template and is outside the modelled compiler. -/

/-- A chunk produced by splitting on the `FUNCTION` regular expression. -/
inductive Chunk where
  | ctext (s : String)
  | cdirective (words : List String)
deriving DecidableEq, Repr

/-- Compile-time errors, i.e. the exceptions `AddString` can raise.

* `unknownDirective` — `TemplateSyntaxError('Unknown template function ...')`;
* `closeMismatch` — `_CloseScope`'s `TemplateSyntaxError('Tried to close ...')`;
* `expectedScope` — `_VerifyOpenScope`'s `TemplateSyntaxError`;
* `elifAfterElse` / `elseAfterElse` — the `Elif`/`Else` guards;
* `badForTag` — `TemplateSyntaxError('Tag ... in for loop is not valid')`;
* `leftOpen n` / `closedTooMany n` — the end-of-input scope-depth report;
* `pyIndexError` — the raw `IndexError` from an empty directive (`.pop(0)`)
  or a `for` without arguments (`nodes[-1]`);
* `pyTypeError` — the raw `TypeError` from calling a construct handler with
  the wrong number of arguments;
* `noParser` — the `TypeError` raised by `AddFile` when no parser is
  attached (the modelled compiler has none). -/
inductive CErr where
  | unknownDirective (name : String)
  | closeMismatch
  | expectedScope
  | elifAfterElse
  | elseAfterElse
  | badForTag
  | leftOpen (n : Nat)
  | closedTooMany (n : Nat)
  | pyIndexError
  | pyTypeError
  | noParser
deriving DecidableEq, Repr

/-- An open (not yet closed) scope above the root: a `TemplateLoop` or a
`TemplateConditional`(`Presence`) that `_StartScope` pushed. -/
inductive IFrame where
  | loopF (tag : TemplateTag) (aliases : List String) (items : List Node)
  | condF (branches : List (List ExprTok × List Node)) (dflt : Option (List Node))
  | presF (checking_presence : Bool) (branches : List (List String × List Node))
      (dflt : Option (List Node))
deriving Repr

/-- The compile-time scope stack: the open scopes innermost-first, and the
root template's node list.  (`self.scopes` holds the template itself as its
bottom element; the root is kept apart so the stack never pops it.) -/
structure CStack where
  inner : List IFrame
  rootItems : List Node
deriving Repr

/-- `scope.append(item)` on an open scope: loops append to their node list,
conditionals to the `else` body once it is open, otherwise to the body of the
latest branch. -/
def frameAppend (f : IFrame) (n : Node) : IFrame :=
  match f with
  | .loopF t a items => .loopF t a (items ++ [n])
  | .condF bs (some d) => .condF bs (some (d ++ [n]))
  | .condF bs none =>
      .condF (bs.dropLast ++ (match bs.getLast? with
        | some (toks, body) => [(toks, body ++ [n])]
        | none => [])) none
  | .presF c bs (some d) => .presF c bs (some (d ++ [n]))
  | .presF c bs none =>
      .presF c (bs.dropLast ++ (match bs.getLast? with
        | some (tags, body) => [(tags, body ++ [n])]
        | none => [])) none

/-- `_AddToOpenScope(item)`: append to the innermost open scope, or to the
root template itself when no scope is open. -/
def stackAppend (st : CStack) (n : Node) : CStack :=
  match st.inner with
  | [] => { st with rootItems := st.rootItems ++ [n] }
  | f :: rest => { st with inner := frameAppend f n :: rest }

/-- `_StartScope(scope)`. -/
def startScope (st : CStack) (f : IFrame) : CStack :=
  { st with inner := f :: st.inner }

/-- The node a closed scope becomes. -/
def frameToNode : IFrame → Node
  | .loopF t a items => .loopNode t a items
  | .condF bs d => .condNode bs d
  | .presF c bs d => .presNode c bs d

/-- `_CloseScope(TemplateLoop)`: the innermost open scope must be a loop
(with no open scope the top of `self.scopes` is the template itself, which
fails the `isinstance` check). -/
def closeLoop (st : CStack) : Except CErr CStack :=
  match st.inner with
  | .loopF t a items :: rest =>
      .ok (stackAppend { st with inner := rest } (.loopNode t a items))
  | _ => .error .closeMismatch

/-- `_CloseScope(TemplateConditional)`: the innermost open scope must be a
conditional; `TemplateConditionalPresence` is a subclass and matches too. -/
def closeCond (st : CStack) : Except CErr CStack :=
  match st.inner with
  | .condF bs d :: rest =>
      .ok (stackAppend { st with inner := rest } (.condNode bs d))
  | .presF c bs d :: rest =>
      .ok (stackAppend { st with inner := rest } (.presNode c bs d))
  | _ => .error .closeMismatch

/-- A Python whitespace character (the ASCII ones). -/
def isPySpace (c : Char) : Bool := c = ' ' || c = '\t' || c = '\n' || c = '\r'

/-- Worker for `pySplit`. -/
def pySplitAux : List Char → List Char → List String
  | [], cur => if cur.isEmpty then [] else [cur.asString]
  | c :: rest, cur =>
      if isPySpace c then
        if cur.isEmpty then pySplitAux rest []
        else cur.asString :: pySplitAux rest []
      else pySplitAux rest (cur ++ [c])

/-- Python `str.split()` with no argument: split on whitespace runs, dropping
empty pieces. -/
def pySplit (s : String) : List String := pySplitAux s.data []

/-- Worker for `splitComma`. -/
def splitCommaAux : List Char → List Char → List String
  | [], cur => [cur.asString]
  | c :: rest, cur =>
      if c = ',' then cur.asString :: splitCommaAux rest []
      else splitCommaAux rest (cur ++ [c])

/-- Python `str.split(',')`: split on every comma, keeping empty pieces
(`''.split(',') == ['']`). -/
def splitComma (s : String) : List String := splitCommaAux s.data []

/-- `' '.join(nodes)`. -/
def joinSpace (ws : List String) : String := joinSep " " ws

/-- The literal spliced by `_TemplateConstructXsrf` (its recursive
`AddString` call on a value free of braces and brackets adds one text
node). -/
def xsrfText (v : String) : String :=
  "<input type=\"hidden\" value=\"" ++ v ++ "\" name=\"xsrf\" />"

/-- The token-to-node injection used when adding a `TagSplit` result to the
open scope. -/
def tokNode : ExprTok → Node
  | .txt s => .text s
  | .etag t => .tagNode t

/-- The recognised construct names (`_TemplateConstruct<Name>` methods); an
unrecognised name keeps the string for the error message. -/
inductive DirKind where
  | dXsrf
  | dInline
  | dFor
  | dEndfor
  | dIf
  | dIfpresent
  | dIfnotpresent
  | dElif
  | dElse
  | dEndif
  | dUnknown (name : String)
deriving DecidableEq, Repr

/-- The `getattr(self, '_TemplateConstruct%s' % function.title())` dispatch:
the `.title()` lookup makes it case-insensitive for the single-word
construct names. -/
def dirOf (fn : String) : DirKind :=
  match lowerStr fn with
  | "xsrf" => .dXsrf
  | "inline" => .dInline
  | "for" => .dFor
  | "endfor" => .dEndfor
  | "if" => .dIf
  | "ifpresent" => .dIfpresent
  | "ifnotpresent" => .dIfnotpresent
  | "elif" => .dElif
  | "else" => .dElse
  | "endif" => .dEndif
  | other => .dUnknown other

/-- `_ExtendFunction(nodes)`: dispatch on the directive name and apply the
construct to the scope stack. -/
def dirStep (st : CStack) (words : List String) : Except CErr CStack :=
  match words with
  | [] => .error .pyIndexError
  | fn :: args =>
      match dirOf fn with
      | .dXsrf =>
          match args with
          | [v] => .ok (stackAppend st (.text (xsrfText v)))
          | _ => .error .pyTypeError
      | .dInline =>
          match args with
          | [_] => .error .noParser
          | _ => .error .pyTypeError
      | .dFor =>
          match args.getLast? with
          | none => .error .pyIndexError
          | some tagstr =>
              match TagFromString tagstr with
              | none => .error .badForTag
              | some t =>
                  let aliases :=
                    splitComma (joinAll (args.take (args.length - 2)))
                  .ok (startScope st (.loopF t aliases []))
      | .dEndfor =>
          match args with
          | [] => closeLoop st
          | _ => .error .pyTypeError
      | .dIf =>
          .ok (startScope st (.condF [(TagSplit (joinSpace args), [])] none))
      | .dIfpresent =>
          .ok (startScope st (.presF true [(pySplit (joinSpace args), [])] none))
      | .dIfnotpresent =>
          .ok (startScope st (.presF true [(pySplit (joinSpace args), [])] none))
      | .dElif =>
          match st.inner with
          | .condF bs none :: rest =>
              .ok { st with
                inner := .condF (bs ++ [(TagSplit (joinSpace args), [])]) none :: rest }
          | .presF c bs none :: rest =>
              .ok { st with
                inner := .presF c (bs ++ [(pySplit (joinSpace args), [])]) none :: rest }
          | .condF _ (some _) :: _ => .error .elifAfterElse
          | .presF _ _ (some _) :: _ => .error .elifAfterElse
          | _ => .error .expectedScope
      | .dElse =>
          match args with
          | [] =>
              match st.inner with
              | .condF bs none :: rest =>
                  .ok { st with inner := .condF bs (some []) :: rest }
              | .presF c bs none :: rest =>
                  .ok { st with inner := .presF c bs (some []) :: rest }
              | .condF _ (some _) :: _ => .error .elseAfterElse
              | .presF _ _ (some _) :: _ => .error .elseAfterElse
              | _ => .error .expectedScope
          | _ => .error .pyTypeError
      | .dEndif =>
          match args with
          | [] => closeCond st
          | _ => .error .pyTypeError
      | .dUnknown other => .error (.unknownDirective other)

/-- Process one chunk: text chunks are `TagSplit` and appended node by node
to the open scope; directive chunks go through the construct dispatch. -/
def chunkStep (st : CStack) : Chunk → Except CErr CStack
  | .ctext s => .ok ((TagSplit s).foldl (fun acc tok => stackAppend acc (tokNode tok)) st)
  | .cdirective ws => dirStep st ws

/-- The chunk loop of `AddString`; on an exception the state reached so far
is returned alongside the error (the Python objects keep their partial
mutations). -/
def compileChunksAux (st : CStack) : List Chunk → CStack × Option CErr
  | [] => (st, none)
  | c :: cs =>
      match chunkStep st c with
      | .ok st2 => compileChunksAux st2 cs
      | .error e => (st, some e)

/-- `AddString(raw_template)` over a chunk list, starting from a given scope
stack: run the chunks, then compare the scope depth with the depth recorded
on entry and raise the signed imbalance. -/
def AddString (st : CStack) (chunks : List Chunk) : CStack × Option CErr :=
  let depth0 := st.inner.length
  match compileChunksAux st chunks with
  | (st2, some e) => (st2, some e)
  | (st2, none) =>
      if st2.inner.length < depth0 then
        (st2, some (.closedTooMany (depth0 - st2.inner.length)))
      else if depth0 < st2.inner.length then
        (st2, some (.leftOpen (st2.inner.length - depth0)))
      else
        (st2, none)

/-- Carry the node of a just-closed frame upward through the remaining open
frames, ending at the root node list. -/
def flattenCarry : Node → List IFrame → List Node → List Node
  | n, [], root => root ++ [n]
  | n, g :: rs, root => flattenCarry (frameToNode (frameAppend g n)) rs root

/-- Fold the unfinished open frames (innermost first) back into their
parents, ending at the root node list. -/
def flattenAux : List IFrame → List Node → List Node
  | [], root => root
  | f :: rest, root => flattenCarry (frameToNode f) rest root

/-- The node list an interrupted compilation leaves on the template: open
scope objects were already appended to their parents by `_StartScope`, so
folding the unfinished frames back in reconstructs the template's members. -/
def flattenStack (st : CStack) : List Node :=
  flattenAux st.inner st.rootItems

/-- The scope stack of a fresh template (`self.scopes = [self]`). -/
def emptyStack : CStack := ⟨[], []⟩

/-- Compile a template from scratch (`Template.__init__` → `AddString`):
either the finished node list, or the first raised error together with the
node list left on the template object. -/
def compileTemplate (chunks : List Chunk) : Except (CErr × List Node) (List Node) :=
  match AddString emptyStack chunks with
  | (st, none) => .ok (flattenStack st)
  | (st, some e) => .error (e, flattenStack st)

/-! ### The scope-discipline checker

`balCheck` is the spec-side notion of a *balanced* template: it tracks only
the kinds of the open scopes (loop vs. conditional, and whether the
conditional's `else` has been opened), together with the directive
well-formedness conditions that compilation checks, and demands that every
scope is closed by the matching closer and that no scope stays open at the
end of input.  It builds no nodes; the theorem for C5 relates it to the
compiler. -/

/-- The kind of an open scope: a loop, or a conditional with a flag telling
whether its `else` body has been opened. -/
inductive SK where
  | skLoop
  | skCond (hasElse : Bool)
deriving DecidableEq, Repr

/-- The kind of an open frame. -/
def skOf : IFrame → SK
  | .loopF _ _ _ => .skLoop
  | .condF _ d => .skCond d.isSome
  | .presF _ _ d => .skCond d.isSome

/-- One step of the scope-discipline checker. -/
def balStep (ks : List SK) : Chunk → Option (List SK)
  | .ctext _ => some ks
  | .cdirective [] => none
  | .cdirective (fn :: args) =>
      match dirOf fn with
      | .dXsrf => if args.length == 1 then some ks else none
      | .dInline => none
      | .dFor =>
          match args.getLast? with
          | none => none
          | some tagstr =>
              if (TagFromString tagstr).isSome then some (.skLoop :: ks) else none
      | .dEndfor =>
          if args.isEmpty then
            match ks with
            | .skLoop :: rest => some rest
            | _ => none
          else none
      | .dIf => some (.skCond false :: ks)
      | .dIfpresent => some (.skCond false :: ks)
      | .dIfnotpresent => some (.skCond false :: ks)
      | .dElif =>
          match ks with
          | .skCond false :: _ => some ks
          | _ => none
      | .dElse =>
          if args.isEmpty then
            match ks with
            | .skCond false :: rest => some (.skCond true :: rest)
            | _ => none
          else none
      | .dEndif =>
          if args.isEmpty then
            match ks with
            | .skCond _ :: rest => some rest
            | _ => none
          else none
      | .dUnknown _ => none

/-- Run the checker over a chunk list. -/
def balSteps (ks : List SK) : List Chunk → Option (List SK)
  | [] => some ks
  | c :: cs =>
      match balStep ks c with
      | some ks2 => balSteps ks2 cs
      | none => none

/-- A template source is balanced when the checker accepts every directive
and no scope remains open at the end of input. -/
def balCheck (cs : List Chunk) : Bool :=
  balSteps [] cs == some []

/-- The kinds of the open scopes of a stack, innermost first. -/
def skMap (fs : List IFrame) : List SK := fs.map skOf

/-! ### File-backed templates (`FileTemplate`) -/

/-- What the filesystem presents for the backing file at render time: the
result of `os.path.getmtime` and of `open(...).read()` (already chunked);
`none` models `IOError`/`OSError`. -/
structure DiskFile where
  mtimeNow : Option Nat
  contents : Option (List Chunk)

/-- The persistent state of a `FileTemplate`: its compiled member nodes and
the cached modification time. -/
structure FileTemplateState where
  nodes : List Node
  fileMtime : Nat
deriving Repr

/-- `FileTemplate.ReloadIfModified`: stat the file; when the modification
time is strictly newer, read and recompile — `del self[:]` clears the member
list and `self.scopes` is reset before `AddString` runs, so a compile error
leaves the partially rebuilt nodes and the *old* cached mtime behind while
the error propagates.  A stat or read failure is swallowed and the old state
kept. -/
def ReloadIfModified (fs : DiskFile) (t : FileTemplateState) :
    FileTemplateState × Option CErr :=
  match fs.mtimeNow with
  | none => (t, none)
  | some m =>
      if t.fileMtime < m then
        match fs.contents with
        | none => (t, none)
        | some chunks =>
            match compileTemplate chunks with
            | .ok ns => (⟨ns, m⟩, none)
            | .error (e, pnodes) => (⟨pnodes, t.fileMtime⟩, some e)
      else (t, none)

/-- Errors a `FileTemplate.Parse` call can surface: a compile error from the
reload, or a render error. -/
inductive PErr where
  | ce (e : CErr)
  | re (e : RErr)
deriving DecidableEq, Repr

/-- `FileTemplate.Parse(**kwds)` (non-no-parse mode): first reload if
modified — an error raised there aborts the render — then render the member
nodes.  Returns the template state left behind together with the outcome. -/
def FileTemplateParse (fs : DiskFile) (t : FileTemplateState) (repl : Repl) :
    FileTemplateState × Except PErr String :=
  match ReloadIfModified fs t with
  | (t2, some e) => (t2, .error (.ce e))
  | (t2, none) =>
      match NodesParse t2.nodes repl with
      | .error e => (t2, .error (.re e))
      | .ok s => (t2, .ok s)

/-! ## Theorems for the claims -/

/-- Evaluation bridge: `str()` of a (safe) string value. -/
theorem pyStr_vstr (s : String) (saf : Option Safety) : pyStr (.vstr s saf) = s := by
  simp [pyStr]

/-- Evaluation bridge: `str()` of a boolean value. -/
theorem pyStr_vbool (b : Bool) : pyStr (.vbool b) = if b then "True" else "False" := by
  simp [pyStr]

/-- Evaluation bridge: `str()` of an integer value. -/
theorem pyStr_vint (n : Int) : pyStr (.vint n) = toString n := by
  simp [pyStr]

/-- Appending a node to a scope does not change its kind. -/
theorem skOf_frameAppend (f : IFrame) (n : Node) : skOf (frameAppend f n) = skOf f := by
  cases f with
  | loopF t a items => rfl
  | condF bs d => cases d <;> rfl
  | presF c bs d => cases d <;> rfl

/-- Appending a node to the open scope does not change the stack's kinds. -/
theorem skMap_stackAppend (st : CStack) (n : Node) :
    skMap (stackAppend st n).inner = skMap st.inner := by
  cases h : st.inner with
  | nil => simp [stackAppend, h]
  | cons f rest => simp [stackAppend, h, skMap, skOf_frameAppend]

/-- Adding a whole `TagSplit` result to the open scope does not change the
stack's kinds. -/
theorem skMap_foldl_stackAppend (toks : List ExprTok) (st : CStack) :
    skMap ((toks.foldl (fun acc tok => stackAppend acc (tokNode tok)) st)).inner
      = skMap st.inner := by
  induction toks generalizing st with
  | nil => rfl
  | cons a l ih =>
      rw [List.foldl_cons, ih, skMap_stackAppend]

/-- A frame of loop kind is a loop frame. -/
theorem skOf_loop_inv (f : IFrame) (h : skOf f = .skLoop) :
    ∃ t a items, f = .loopF t a items := by
  cases f with
  | loopF t a items => exact ⟨t, a, items, rfl⟩
  | condF bs d => simp [skOf] at h
  | presF c bs d => simp [skOf] at h

/-- A frame of else-less conditional kind is an else-less conditional or
presence frame. -/
theorem skOf_condFalse_inv (f : IFrame) (h : skOf f = .skCond false) :
    (∃ bs, f = .condF bs none) ∨ ∃ c bs, f = .presF c bs none := by
  cases f with
  | loopF t a items => simp [skOf] at h
  | condF bs d =>
      cases d with
      | none => exact Or.inl ⟨bs, rfl⟩
      | some x => simp [skOf] at h
  | presF c bs d =>
      cases d with
      | none => exact Or.inr ⟨c, bs, rfl⟩
      | some x => simp [skOf] at h

/-- A frame of conditional kind is a conditional or presence frame. -/
theorem skOf_cond_inv (f : IFrame) (b : Bool) (h : skOf f = .skCond b) :
    (∃ bs d, f = .condF bs d) ∨ ∃ c bs d, f = .presF c bs d := by
  cases f with
  | loopF t a items => simp [skOf] at h
  | condF bs d => exact Or.inl ⟨bs, d, rfl⟩
  | presF c bs d => exact Or.inr ⟨c, bs, d, rfl⟩

/-- When the scope-discipline checker accepts a chunk against the kinds of a
stack, the compiler's step on that stack succeeds, and the resulting stack's
kinds are the checker's. -/
theorem chunkStep_of_balStep (st : CStack) (c : Chunk) (ks2 : List SK)
    (h : balStep (skMap st.inner) c = some ks2) :
    ∃ st2, chunkStep st c = .ok st2 ∧ skMap st2.inner = ks2 := by
  cases c with
  | ctext s =>
      simp only [balStep, Option.some.injEq] at h
      exact ⟨_, rfl, by rw [skMap_foldl_stackAppend]; exact h⟩
  | cdirective ws =>
      cases ws with
      | nil => simp [balStep] at h
      | cons fn args =>
          simp only [balStep] at h
          cases hd : dirOf fn with
          | dXsrf =>
              simp only [hd] at h
              split at h
              · obtain ⟨v, rfl⟩ : ∃ v, args = [v] := by
                  cases args with
                  | nil => simp_all
                  | cons v t =>
                      cases t with
                      | nil => exact ⟨v, rfl⟩
                      | cons x y => simp_all
                have hk := Option.some.inj h
                refine ⟨stackAppend st (.text (xsrfText v)), ?_, ?_⟩
                · simp [chunkStep, dirStep, hd]
                · rw [skMap_stackAppend]; exact hk
              · exact absurd h (by simp)
          | dInline => simp [hd] at h
          | dFor =>
              simp only [hd] at h
              cases hg : args.getLast? with
              | none => simp [hg] at h
              | some tagstr =>
                  simp only [hg] at h
                  cases ht : TagFromString tagstr with
                  | none => simp [ht] at h
                  | some t =>
                      simp only [ht] at h
                      simp only [Option.isSome_some, if_true] at h
                      have hk := Option.some.inj h
                      refine ⟨startScope st
                        (.loopF t (splitComma (joinAll (args.take (args.length - 2)))) []),
                        ?_, ?_⟩
                      · simp [chunkStep, dirStep, hd, hg, ht]
                      · rw [← hk]; simp [startScope, skMap, skOf]
          | dEndfor =>
              simp only [hd] at h
              split at h
              · obtain rfl : args = [] := by
                  cases args with
                  | nil => rfl
                  | cons x y => simp_all
                cases hi : st.inner with
                | nil => simp [hi, skMap] at h
                | cons f fs =>
                    simp only [hi] at h
                    simp only [skMap, List.map_cons] at h
                    cases hsk : skOf f with
                    | skCond b => simp [hsk] at h
                    | skLoop =>
                        simp only [hsk] at h
                        have hk := Option.some.inj h
                        obtain ⟨t, a, items, rfl⟩ := skOf_loop_inv f hsk
                        refine ⟨stackAppend { st with inner := fs } (.loopNode t a items),
                          ?_, ?_⟩
                        · simp [chunkStep, dirStep, hd, closeLoop, hi]
                        · rw [skMap_stackAppend]; exact hk
              · exact absurd h (by simp)
          | dIf =>
              simp only [hd] at h
              have hk := Option.some.inj h
              refine ⟨startScope st (.condF [(TagSplit (joinSpace args), [])] none), ?_, ?_⟩
              · simp [chunkStep, dirStep, hd]
              · rw [← hk]; simp [startScope, skMap, skOf]
          | dIfpresent =>
              simp only [hd] at h
              have hk := Option.some.inj h
              refine ⟨startScope st (.presF true [(pySplit (joinSpace args), [])] none),
                ?_, ?_⟩
              · simp [chunkStep, dirStep, hd]
              · rw [← hk]; simp [startScope, skMap, skOf]
          | dIfnotpresent =>
              simp only [hd] at h
              have hk := Option.some.inj h
              refine ⟨startScope st (.presF true [(pySplit (joinSpace args), [])] none),
                ?_, ?_⟩
              · simp [chunkStep, dirStep, hd]
              · rw [← hk]; simp [startScope, skMap, skOf]
          | dElif =>
              simp only [hd] at h
              cases hi : st.inner with
              | nil => simp [hi, skMap] at h
              | cons f fs =>
                  simp only [hi] at h
                  simp only [skMap, List.map_cons] at h
                  cases hsk : skOf f with
                  | skLoop => simp [hsk] at h
                  | skCond b =>
                      cases b with
                      | true => simp [hsk] at h
                      | false =>
                          simp only [hsk] at h
                          have hk := Option.some.inj h
                          rcases skOf_condFalse_inv f hsk with ⟨bs, rfl⟩ | ⟨cc, bs, rfl⟩
                          · refine ⟨{ st with
                              inner := .condF (bs ++ [(TagSplit (joinSpace args), [])])
                                none :: fs }, ?_, ?_⟩
                            · simp [chunkStep, dirStep, hd, hi]
                            · rw [← hk]; simp [skMap, skOf]
                          · refine ⟨{ st with
                              inner := .presF cc (bs ++ [(pySplit (joinSpace args), [])])
                                none :: fs }, ?_, ?_⟩
                            · simp [chunkStep, dirStep, hd, hi]
                            · rw [← hk]; simp [skMap, skOf]
          | dElse =>
              simp only [hd] at h
              split at h
              · obtain rfl : args = [] := by
                  cases args with
                  | nil => rfl
                  | cons x y => simp_all
                cases hi : st.inner with
                | nil => simp [hi, skMap] at h
                | cons f fs =>
                    simp only [hi] at h
                    simp only [skMap, List.map_cons] at h
                    cases hsk : skOf f with
                    | skLoop => simp [hsk] at h
                    | skCond b =>
                        cases b with
                        | true => simp [hsk] at h
                        | false =>
                            simp only [hsk] at h
                            have hk := Option.some.inj h
                            rcases skOf_condFalse_inv f hsk with ⟨bs, rfl⟩ | ⟨cc, bs, rfl⟩
                            · refine ⟨{ st with inner := .condF bs (some []) :: fs },
                                ?_, ?_⟩
                              · simp [chunkStep, dirStep, hd, hi]
                              · rw [← hk]; simp [skMap, skOf]
                            · refine ⟨{ st with inner := .presF cc bs (some []) :: fs },
                                ?_, ?_⟩
                              · simp [chunkStep, dirStep, hd, hi]
                              · rw [← hk]; simp [skMap, skOf]
              · exact absurd h (by simp)
          | dEndif =>
              simp only [hd] at h
              split at h
              · obtain rfl : args = [] := by
                  cases args with
                  | nil => rfl
                  | cons x y => simp_all
                cases hi : st.inner with
                | nil => simp [hi, skMap] at h
                | cons f fs =>
                    simp only [hi] at h
                    simp only [skMap, List.map_cons] at h
                    cases hsk : skOf f with
                    | skLoop => simp [hsk] at h
                    | skCond b =>
                        simp only [hsk] at h
                        have hk := Option.some.inj h
                        rcases skOf_cond_inv f b hsk with ⟨bs, d, rfl⟩ | ⟨cc, bs, d, rfl⟩
                        · refine ⟨stackAppend { st with inner := fs } (.condNode bs d),
                            ?_, ?_⟩
                          · simp [chunkStep, dirStep, hd, closeCond, hi]
                          · rw [skMap_stackAppend]; exact hk
                        · refine ⟨stackAppend { st with inner := fs } (.presNode cc bs d),
                            ?_, ?_⟩
                          · simp [chunkStep, dirStep, hd, closeCond, hi]
                          · rw [skMap_stackAppend]; exact hk
              · exact absurd h (by simp)
          | dUnknown other => simp [hd] at h

/-- When the checker accepts a whole chunk list against the kinds of a
stack, the compiler's chunk loop runs to completion with no error, ending on
a stack with the checker's final kinds. -/
theorem compileAux_of_balSteps (cs : List Chunk) : ∀ (st : CStack) (ks2 : List SK),
    balSteps (skMap st.inner) cs = some ks2 →
    ∃ st2, compileChunksAux st cs = (st2, none) ∧ skMap st2.inner = ks2 := by
  induction cs with
  | nil =>
      intro st ks2 h
      simp only [balSteps, Option.some.injEq] at h
      exact ⟨st, rfl, h⟩
  | cons c cs ih =>
      intro st ks2 h
      simp only [balSteps] at h
      cases hb : balStep (skMap st.inner) c with
      | none => rw [hb] at h; simp at h
      | some ks1 =>
          rw [hb] at h
          obtain ⟨st1, hstep, hsk⟩ := chunkStep_of_balStep st c ks1 hb
          obtain ⟨st2, haux, hsk2⟩ := ih st1 ks2 (by rw [hsk]; exact h)
          exact ⟨st2, by simp [compileChunksAux, hstep, haux], hsk2⟩

/-- Counterexample to claim C5 as stated: `{\x7b endif \x7d}` alone is an
unbalanced source, but compilation does not fail with the end-of-input
imbalance report — `_CloseScope` raises the scope-mismatch
`TemplateSyntaxError('Tried to close ...')` immediately, which is neither
the `leftOpen` nor the `closedTooMany` depth report. -/
theorem C5_counterexample :
    balCheck [Chunk.cdirective ["endif"]] = false ∧
    compileTemplate [Chunk.cdirective ["endif"]] = .error (.closeMismatch, []) ∧
    (∀ n : Nat, CErr.closeMismatch ≠ CErr.leftOpen n ∧
      CErr.closeMismatch ≠ CErr.closedTooMany n) := by
  refine ⟨by rfl, by rfl, ?_⟩
  intro n
  exact ⟨by simp, by simp⟩

/-- Claim C5 as amended: every balanced source (scope discipline and
directive well-formedness, as `balCheck` captures) compiles successfully;
an unbalanced source that still processes *all* its chunks — i.e. one whose
only fault is scopes left open — fails with the `TemplateSyntaxError`
reporting the signed scope-depth imbalance; sources that mis-close a scope
(or mis-use a directive) fail earlier with a different
`TemplateSyntaxError`. -/
theorem C5_balanced_compile (cs : List Chunk) :
    (balCheck cs = true → (compileTemplate cs).isOk = true) ∧
    (∀ st : CStack, compileChunksAux emptyStack cs = (st, none) → st.inner ≠ [] →
      compileTemplate cs = .error (.leftOpen st.inner.length, flattenStack st)) := by
  constructor
  · intro hbal
    have h0 : balSteps [] cs = some [] := by
      have := of_decide_eq_true (by simpa [balCheck] using hbal)
      exact this
    obtain ⟨st2, haux, hsk⟩ := compileAux_of_balSteps cs emptyStack [] h0
    have hinner : st2.inner = [] := by
      cases hi : st2.inner with
      | nil => rfl
      | cons f fs => rw [hi] at hsk; simp [skMap] at hsk
    have haux2 : compileChunksAux ⟨[], []⟩ cs = (st2, none) := haux
    simp [compileTemplate, AddString, emptyStack, haux2, hinner, Except.isOk, Except.toBool]
  · intro st haux hne
    have hlen : 0 < st.inner.length := by
      cases hi : st.inner with
      | nil => exact absurd hi hne
      | cons f fs => simp [hi]
    have haux2 : compileChunksAux ⟨[], []⟩ cs = (st, none) := haux
    simp [compileTemplate, AddString, emptyStack, haux2, hlen]

/-- Witness for the amended C5 on a balanced source with a conditional, an
`else` branch and a loop. -/
theorem C5_balanced_compile_witness :
    (compileTemplate
      [Chunk.ctext "A", Chunk.cdirective ["if", "[x]"],
       Chunk.cdirective ["for", "i", "in", "[xs]"], Chunk.ctext "[i]",
       Chunk.cdirective ["endfor"], Chunk.cdirective ["else"], Chunk.ctext "no",
       Chunk.cdirective ["endif"]]).isOk = true :=
  (C5_balanced_compile
    [Chunk.ctext "A", Chunk.cdirective ["if", "[x]"],
     Chunk.cdirective ["for", "i", "in", "[xs]"], Chunk.ctext "[i]",
     Chunk.cdirective ["endfor"], Chunk.cdirective ["else"], Chunk.ctext "no",
     Chunk.cdirective ["endif"]]).1 (by rfl)

/-- Claim C2: for every Tag node rendered against a replacements mapping, a
resolution failure with `TemplateNameError` (tag name absent) or
`TemplateKeyError` (index projection failed) is recovered locally — the
renderer emits the tag's literal text `str(self)` and no error propagates;
any other resolution error, and any error of the function pipeline applied
after a successful resolution, propagates to the caller. -/
theorem C2_tag_error_recovery (t : TemplateTag) (repl : Repl) :
    (GetValue t repl = .error .nameErr ∨ GetValue t repl = .error .keyErr →
      NodeParse (.tagNode t) repl = .ok (tagToString t)) ∧
    (∀ e : RErr, GetValue t repl = .error e → e ≠ .nameErr → e ≠ .keyErr →
      NodeParse (.tagNode t) repl = .error e) ∧
    (∀ (v : Value) (e : RErr), GetValue t repl = .ok v → t.functions.isEmpty = false →
      applyPipeline t.functions v = .error e →
      NodeParse (.tagNode t) repl = .error e) := by
  refine ⟨?_, ?_, ?_⟩
  · rintro (h | h) <;> simp [NodeParse, TagParse, h]
  · intro e h hn hk
    cases e <;> simp_all [NodeParse, TagParse]
  · intro v e hv hf hp
    simp [NodeParse, TagParse, hv, hf, hp]

/-- Witness for C2 at the tag `[x]` and an empty replacements mapping. -/
theorem C2_tag_error_recovery_witness :
    NodeParse (.tagNode ⟨"x", [], []⟩) [] = .ok (tagToString ⟨"x", [], []⟩) :=
  (C2_tag_error_recovery ⟨"x", [], []⟩ []).1 (Or.inl rfl)

/-- Claim C3: when a tag lists no functions and its resolved value is not a
safe string, the `default` registry function — HTML-escape and mark
HTML-safe — is applied to it; when the resolved value is already a safe
string and no functions are listed, the value passes through unchanged with
no function applied. -/
theorem C3_default_function (t : TemplateTag) (repl : Repl) (v : Value)
    (hres : GetValue t repl = .ok v) (hfn : t.functions = []) :
    (isSafe v = false →
      NodeParse (.tagNode t) repl = .ok (pyStr (fnDefault v)) ∧
      fnDefault v = .vstr (htmlEscape (pyStr v)) (some .html) ∧
      isSafe (fnDefault v) = true ∧
      ApplyFunction "default" v = .ok (fnDefault v)) ∧
    (isSafe v = true → NodeParse (.tagNode t) repl = .ok (pyStr v)) := by
  have hdef : isSafe v = false →
      fnDefault v = .vstr (htmlEscape (pyStr v)) (some .html) := by
    intro hunsafe
    cases v with
    | vstr s saf =>
        cases saf with
        | none => rfl
        | some _ => simp [isSafe] at hunsafe
    | vint n => rfl
    | vbool b => rfl
    | vnone => rfl
    | vlist xs => rfl
    | vdict es => rfl
  constructor
  · intro hunsafe
    refine ⟨by simp [NodeParse, TagParse, hres, hfn, hunsafe], hdef hunsafe, ?_, ?_⟩
    · rw [hdef hunsafe]; rfl
    · simp [ApplyFunction, tagFunction?]
  · intro hsafe
    simp [NodeParse, TagParse, hres, hfn, hsafe]

/-- Witness for C3: `[s]` with `s = "<b>"` (unsafe) escapes via `default`. -/
theorem C3_default_function_witness :
    NodeParse (.tagNode ⟨"s", [], []⟩) [("s", Value.vstr "<b>" none)]
      = .ok (pyStr (fnDefault (Value.vstr "<b>" none))) :=
  ((C3_default_function ⟨"s", [], []⟩ [("s", Value.vstr "<b>" none)]
      (Value.vstr "<b>" none) rfl rfl).1 rfl).1

/-- Claim C9: for a loop whose source tag resolves by name but whose index
projection fails (`TemplateKeyError`), the loop iterates zero times and
contributes the empty string; when the source tag's *name* is absent, the
resolution raises `TemplateNameError`, which `Iterator` does not catch, so
rendering the loop fails with that error. -/
theorem C9_loop_resolution_errors (tag : TemplateTag) (aliases : List String)
    (body : List Node) (repl : Repl) :
    (GetValue tag repl = .error .keyErr →
      NodeParse (.loopNode tag aliases body) repl = .ok "") ∧
    (GetValue tag repl = .error .nameErr →
      NodeParse (.loopNode tag aliases body) repl = .error .nameErr) := by
  constructor
  · intro h
    simp [NodeParse, TagIterator, h, LoopItems]
  · intro h
    simp [NodeParse, TagIterator, h]

/-- Witness for C9: `[xs:9]` over an empty list projects nowhere (empty
render), and a missing `xs` name raises. -/
theorem C9_loop_resolution_errors_witness :
    NodeParse (.loopNode ⟨"xs", ["9"], []⟩ ["i"] [Node.text "Q"])
        [("xs", Value.vlist [])] = .ok "" ∧
    NodeParse (.loopNode ⟨"xs", [], []⟩ ["i"] [Node.text "Q"]) [] = .error .nameErr :=
  ⟨(C9_loop_resolution_errors ⟨"xs", ["9"], []⟩ ["i"] [Node.text "Q"]
      [("xs", Value.vlist [])]).1 (by rfl),
   (C9_loop_resolution_errors ⟨"xs", [], []⟩ ["i"] [Node.text "Q"] []).2 (by rfl)⟩

/-- Claim C7: rendering a loop with two or more aliases unpacks each item as
an ordered sequence — an item without a length raises `TemplateValueError`
(a `ValueError`), as does a length different from the alias count — while a
single alias binds the item directly with no unpacking. -/
theorem C7_loop_unpack (tag : TemplateTag) (aliases : List String)
    (body : List Node) (repl : Repl) :
    (∀ a item, aliases = [a] → bindAliases aliases item repl = .ok (rset repl a item)) ∧
    (∀ item rest, TagIterator tag repl = .ok (item :: rest) → 2 ≤ aliases.length →
      pyLen item = none →
      NodeParse (.loopNode tag aliases body) repl = .error .valueErr) ∧
    (∀ item rest L, TagIterator tag repl = .ok (item :: rest) → 2 ≤ aliases.length →
      pyLen item = some L → L ≠ aliases.length →
      NodeParse (.loopNode tag aliases body) repl = .error .valueErr) := by
  refine ⟨?_, ?_, ?_⟩
  · rintro a item rfl
    simp [bindAliases]
  · intro item rest hiter hlen hplen
    have h1 : (aliases.length == 1) = false := by
      simp only [beq_eq_false_iff_ne, ne_eq]
      omega
    simp [NodeParse, hiter, LoopItems, bindAliases, h1, hplen]
  · intro item rest L hiter hlen hplen hne
    have h1 : (aliases.length == 1) = false := by
      simp only [beq_eq_false_iff_ne, ne_eq]
      omega
    have h2 : (L == aliases.length) = false := by
      simp only [beq_eq_false_iff_ne, ne_eq]
      omega
    simp [NodeParse, hiter, LoopItems, bindAliases, h1, hplen, h2]

/-- Witness for C7: unpacking the item `7` into two aliases raises; a single
alias binds directly. -/
theorem C7_loop_unpack_witness :
    NodeParse (.loopNode ⟨"xs", [], []⟩ ["a", "b"] [])
        [("xs", Value.vlist [Value.vint 7])] = .error .valueErr ∧
    bindAliases ["i"] (Value.vint 7) [] = .ok (rset [] "i" (Value.vint 7)) :=
  ⟨(C7_loop_unpack ⟨"xs", [], []⟩ ["a", "b"] []
      [("xs", Value.vlist [Value.vint 7])]).2.1 (Value.vint 7) [] (by rfl)
      (by decide) (by rfl),
   (C7_loop_unpack ⟨"xs", [], []⟩ ["i"] [] []).1 "i" (Value.vint 7) rfl⟩

/-- Claim C4: rendering a file-backed template first stats the backing file;
the template is re-read and recompiled exactly when the modification time is
strictly greater than the cached one; a failed stat or read keeps the old
compiled form silently; a syntax error raised while recompiling the new
source propagates out of the render call. -/
theorem C4_reload_semantics (fs : DiskFile) (t : FileTemplateState) :
    (fs.mtimeNow = none → ReloadIfModified fs t = (t, none)) ∧
    (∀ m, fs.mtimeNow = some m → m ≤ t.fileMtime → ReloadIfModified fs t = (t, none)) ∧
    (∀ m, fs.mtimeNow = some m → t.fileMtime < m → fs.contents = none →
      ReloadIfModified fs t = (t, none)) ∧
    (∀ m chunks ns, fs.mtimeNow = some m → t.fileMtime < m → fs.contents = some chunks →
      compileTemplate chunks = .ok ns → ReloadIfModified fs t = (⟨ns, m⟩, none)) ∧
    (∀ m chunks e pnodes, fs.mtimeNow = some m → t.fileMtime < m →
      fs.contents = some chunks → compileTemplate chunks = .error (e, pnodes) →
      (ReloadIfModified fs t).2 = some e ∧
      ∀ repl, (FileTemplateParse fs t repl).2 = .error (.ce e)) := by
  refine ⟨?_, ?_, ?_, ?_, ?_⟩
  · intro h; simp [ReloadIfModified, h]
  · intro m h hle
    have hlt : ¬t.fileMtime < m := by omega
    simp [ReloadIfModified, h, hlt]
  · intro m h hlt hc
    simp [ReloadIfModified, h, hlt, hc]
  · intro m chunks ns h hlt hc hcompile
    simp [ReloadIfModified, h, hlt, hc, hcompile]
  · intro m chunks e pnodes h hlt hc hcompile
    constructor
    · simp [ReloadIfModified, h, hlt, hc, hcompile]
    · intro repl
      simp [FileTemplateParse, ReloadIfModified, h, hlt, hc, hcompile]

/-- Witness for C4: a newer mtime with a balanced new source swaps in the
recompiled nodes and caches the new mtime. -/
theorem C4_reload_semantics_witness :
    ReloadIfModified ⟨some 9, some [Chunk.ctext "N"]⟩ ⟨[Node.text "OLD"], 3⟩
      = (⟨[Node.text "N"], 9⟩, none) :=
  (C4_reload_semantics ⟨some 9, some [Chunk.ctext "N"]⟩ ⟨[Node.text "OLD"], 3⟩).2.2.2.1
    9 [Chunk.ctext "N"] [Node.text "N"] rfl (by decide) rfl (by rfl)

/-- Claim C10: the reload of a file-backed template is not atomic on a
compile failure — when the modification time has advanced and compiling the
new source raises, the old member nodes have already been cleared (`del
self[:]` runs before `AddString`), so the template is left with only the
nodes the failed compilation managed to build, while the cached modification
time keeps its old value and the error propagates. -/
theorem C10_reload_not_atomic (fs : DiskFile) (t : FileTemplateState)
    (m : Nat) (chunks : List Chunk) (e : CErr) (pnodes : List Node)
    (h1 : fs.mtimeNow = some m) (h2 : t.fileMtime < m)
    (h3 : fs.contents = some chunks)
    (h4 : compileTemplate chunks = .error (e, pnodes)) :
    ReloadIfModified fs t = (⟨pnodes, t.fileMtime⟩, some e) := by
  simp [ReloadIfModified, h1, h2, h3, h4]

/-- Witness for C10: a new source that leaves a scope open loses the old
node `OLD`; the partial nodes of the failed compile and the *old* mtime
remain, with the `leftOpen` error propagating. -/
theorem C10_reload_not_atomic_witness :
    ReloadIfModified ⟨some 5, some [Chunk.cdirective ["if", "[x]"], Chunk.ctext "p"]⟩
        ⟨[Node.text "OLD"], 3⟩
      = (⟨[Node.condNode [([ExprTok.etag ⟨"x", [], []⟩], [Node.text "p"])] none], 3⟩,
         some (CErr.leftOpen 1)) :=
  C10_reload_not_atomic ⟨some 5, some [Chunk.cdirective ["if", "[x]"], Chunk.ctext "p"]⟩
    ⟨[Node.text "OLD"], 3⟩ 5 [Chunk.cdirective ["if", "[x]"], Chunk.ctext "p"]
    (CErr.leftOpen 1)
    [Node.condNode [([ExprTok.etag ⟨"x", [], []⟩], [Node.text "p"])] none]
    rfl (by decide) rfl (by rfl)

/-- Claim C1 (code bug): the `ifpresent` half of the claim holds, but
`ifnotpresent` is *not* inverted.  `_TemplateConstructIfpresent` and
`_TemplateConstructIfnotpresent` build the same object — the constructor's
`checking_presence` flag is `True` in both cases (default for the one,
explicit for the other) and, decisively, no method ever reads the stored
attribute: `TemplateConditional.Parse` hard-codes
`kwds['checking_presence'] = True` for any `TemplateConditionalPresence`.
Hence the two compile to the same node (first two conjuncts), a
present tag renders the branch for both forms (fourth conjunct), and an
absent tag renders the `else` body for both forms (third conjunct) — where
the claim requires `ifnotpresent` to take the branch. -/
theorem C1_presence_conditional :
    compileTemplate
        [Chunk.cdirective ["ifnotpresent", "[x]"], Chunk.ctext "A",
         Chunk.cdirective ["else"], Chunk.ctext "B", Chunk.cdirective ["endif"]]
      = .ok [Node.presNode true [(["[x]"], [Node.text "A"])] (some [Node.text "B"])] ∧
    compileTemplate
        [Chunk.cdirective ["ifpresent", "[x]"], Chunk.ctext "A",
         Chunk.cdirective ["else"], Chunk.ctext "B", Chunk.cdirective ["endif"]]
      = .ok [Node.presNode true [(["[x]"], [Node.text "A"])] (some [Node.text "B"])] ∧
    NodesParse [Node.presNode true [(["[x]"], [Node.text "A"])] (some [Node.text "B"])] []
      = .ok "B" ∧
    NodesParse [Node.presNode true [(["[x]"], [Node.text "A"])] (some [Node.text "B"])]
        [("x", Value.vint 0)]
      = .ok "A" := by
  refine ⟨by rfl, by rfl, ?_, ?_⟩
  · have hp : presExpression ["[x]"] (rset [] "checking_presence" (Value.vbool true))
        = .ok false := by rfl
    simp [NodesParse, NodeParse, PresBranches, hp]
  · have hp : presExpression ["[x]"]
        (rset [("x", Value.vint 0)] "checking_presence" (Value.vbool true))
        = .ok true := by rfl
    simp [NodesParse, NodeParse, PresBranches, hp]

/-- Claim C6: the conditional-expression evaluator resolves tag values
lazily — when the left operand of `and` is already false, the whole
expression evaluates to it and the right operand (and hence its tags) is
never forced.  In particular
`{\x7b if [a] and [b:0] \x7d}yes{\x7b else \x7d}no{\x7b endif \x7d}` with
`a = False` and `b = 5` renders `no` with no error, although forcing `[b:0]`
alone raises a `TypeError`. -/
theorem C6_short_circuit :
    (∀ (A B : PE) (env : List (String × TemplateTag)) (repl : Repl) (va : Value),
      pyEvalPE env repl A = .ok va → pyTruthy va = false →
      pyEvalPE env repl (.pand A B) = .ok va) ∧
    NodesParse
        [Node.condNode
          [([ExprTok.etag ⟨"a", [], []⟩, ExprTok.txt " and ", ExprTok.etag ⟨"b", ["0"], []⟩],
            [Node.text "yes"])]
          (some [Node.text "no"])]
        [("a", Value.vbool false), ("b", Value.vint 5)] = .ok "no" ∧
    TagParse ⟨"b", ["0"], []⟩ [("b", Value.vint 5)] = .error .typeErr := by
  refine ⟨?_, ?_, by rfl⟩
  · intro A B env repl va h1 h2
    simp [pyEvalPE, h1, h2]
  · have hc : condExpression
        [ExprTok.etag ⟨"a", [], []⟩, ExprTok.txt " and ", ExprTok.etag ⟨"b", ["0"], []⟩]
        [("a", Value.vbool false), ("b", Value.vint 5)] = .ok (Value.vbool false) := by rfl
    simp [NodesParse, NodeParse, CondBranches, hc, pyTruthy]

/-- Witness for C6: a false left operand short-circuits past a right operand
whose evaluation would raise (`missing` is no placeholder, so forcing it
raises `NameError`). -/
theorem C6_short_circuit_witness :
    pyEvalPE [] [] (.pand (.plit (Value.vbool false)) (.pname "missing"))
      = .ok (Value.vbool false) :=
  C6_short_circuit.1 (.plit (Value.vbool false)) (.pname "missing") [] []
    (Value.vbool false) rfl rfl

/-- Counterexample to claim C8, at the template source
`\x7b\x7b if [c] \x7d\x7d[x]\x7b\x7b else \x7d\x7d[y]\x7b\x7b endif \x7d\x7d`
(first conjunct: its `FUNCTION`-regex split, the chunk list shown, compiles
to the conditional node).  The template contains the Tag node `[y]` inside
the conditional's `else` branch, and `[y]` resolves fine (third conjunct),
yet the no-parse replacements mapping holds only `[c]` (from the branch
expression) and `[x]` (from the branch body): the collection iterates
`itertools.chain(*branches)`, which never visits the `default` (`else`)
body, so not every Tag node of the template is visited (second conjunct).
Moreover `page_hash` does not digest the unrendered template source: it
digests `str(self)`, the reconstruction, which re-inserts the directives
with its own newlines and so differs from the source text (fourth and fifth
conjuncts). -/
theorem C8_counterexample :
    compileTemplate
        [Chunk.ctext "", Chunk.cdirective ["if", "[c]"], Chunk.ctext "[x]",
         Chunk.cdirective ["else"], Chunk.ctext "[y]", Chunk.cdirective ["endif"],
         Chunk.ctext ""]
      = .ok [Node.condNode [([ExprTok.etag ⟨"c", [], []⟩], [Node.tagNode ⟨"x", [], []⟩])]
          (some [Node.tagNode ⟨"y", [], []⟩])] ∧
    (TemplateNoParse id
        [Node.condNode [([ExprTok.etag ⟨"c", [], []⟩], [Node.tagNode ⟨"x", [], []⟩])]
          (some [Node.tagNode ⟨"y", [], []⟩])]
        [("c", Value.vbool true), ("x", Value.vstr "1" none),
         ("y", Value.vstr "2" none)]).map
      (fun res => res.map (fun r => (r.replacements.map Prod.fst, r.content_hash)))
      = some (.ok (["[c]", "[x]"], "1")) ∧
    TagParse ⟨"y", [], []⟩
        [("c", Value.vbool true), ("x", Value.vstr "1" none),
         ("y", Value.vstr "2" none)]
      = .ok "2" ∧
    nodesToStringE
        [Node.condNode [([ExprTok.etag ⟨"c", [], []⟩], [Node.tagNode ⟨"x", [], []⟩])]
          (some [Node.tagNode ⟨"y", [], []⟩])]
      = .ok "\n\x7b\x7b if [c] \x7d\x7d[x]\n\x7b\x7b else \x7d\x7d[y]\n\x7b\x7b endif \x7d\x7d" ∧
    ("\n\x7b\x7b if [c] \x7d\x7d[x]\n\x7b\x7b else \x7d\x7d[y]\n\x7b\x7b endif \x7d\x7d" : String)
      ≠ "\x7b\x7b if [c] \x7d\x7d[x]\x7b\x7b else \x7d\x7d[y]\x7b\x7b endif \x7d\x7d" := by
  have hx : TagParse ⟨"x", [], []⟩
      [("c", Value.vbool true), ("x", Value.vstr "1" none),
       ("y", Value.vstr "2" none)] = .ok "1" := by
    have h1 : GetValue ⟨"x", [], []⟩
        [("c", Value.vbool true), ("x", Value.vstr "1" none),
         ("y", Value.vstr "2" none)] = .ok (Value.vstr "1" none) := by rfl
    simp [TagParse, h1, isSafe, fnDefault, pyStr_vstr]
    rfl
  have hcc : TagParse ⟨"c", [], []⟩
      [("c", Value.vbool true), ("x", Value.vstr "1" none),
       ("y", Value.vstr "2" none)] = .ok "True" := by
    have h1 : GetValue ⟨"c", [], []⟩
        [("c", Value.vbool true), ("x", Value.vstr "1" none),
         ("y", Value.vstr "2" none)] = .ok (Value.vbool true) := by rfl
    simp [TagParse, h1, isSafe, fnDefault, pyStr_vbool, pyStr_vstr]
    rfl
  have hy : TagParse ⟨"y", [], []⟩
      [("c", Value.vbool true), ("x", Value.vstr "1" none),
       ("y", Value.vstr "2" none)] = .ok "2" := by
    have h1 : GetValue ⟨"y", [], []⟩
        [("c", Value.vbool true), ("x", Value.vstr "1" none),
         ("y", Value.vstr "2" none)] = .ok (Value.vstr "2" none) := by rfl
    simp [TagParse, h1, isSafe, fnDefault, pyStr_vstr]
    rfl
  have hpage : nodesToStringE
      [Node.condNode [([ExprTok.etag ⟨"c", [], []⟩], [Node.tagNode ⟨"x", [], []⟩])]
        (some [Node.tagNode ⟨"y", [], []⟩])]
      = .ok "\n\x7b\x7b if [c] \x7d\x7d[x]\n\x7b\x7b else \x7d\x7d[y]\n\x7b\x7b endif \x7d\x7d" := by
    simp [nodesToStringE, nodeToStringE, condBranchStrsE, elseStrE, exprTokensStr]
    rfl
  refine ⟨by rfl, ?_, hy, hpage, by decide⟩
  have hpf : presFree
      [Node.condNode [([ExprTok.etag ⟨"c", [], []⟩], [Node.tagNode ⟨"x", [], []⟩])]
        (some [Node.tagNode ⟨"y", [], []⟩])] = true := by
    simp [presFree, presFreeNode, presFreeBranches, presFreeOpt]
  have hc : condExpression [ExprTok.etag ⟨"c", [], []⟩]
      [("c", Value.vbool true), ("x", Value.vstr "1" none),
       ("y", Value.vstr "2" none)] = .ok (Value.vbool true) := by rfl
  have hrender : NodesParse
      [Node.condNode [([ExprTok.etag ⟨"c", [], []⟩], [Node.tagNode ⟨"x", [], []⟩])]
        (some [Node.tagNode ⟨"y", [], []⟩])]
      [("c", Value.vbool true), ("x", Value.vstr "1" none),
       ("y", Value.vstr "2" none)] = .ok "1" := by
    simp [NodesParse, NodeParse, CondBranches, hc, pyTruthy, hx]
  have hcollect : CollectTags
      [Node.condNode [([ExprTok.etag ⟨"c", [], []⟩], [Node.tagNode ⟨"x", [], []⟩])]
        (some [Node.tagNode ⟨"y", [], []⟩])]
      [("c", Value.vbool true), ("x", Value.vstr "1" none),
       ("y", Value.vstr "2" none)] = .ok [("[c]", "True"), ("[x]", "1")] := by
    simp [CollectTags, collectInto, condChainTags, condExprTags, bodyTags, hcc, hx, sset]
    rfl
  simp [TemplateNoParse, hpf, hrender, hpage, hcollect]
  rfl

/-- Claim C8 as amended: in no-parse mode the returned structure's
`replacements` mapping is `CollectTags` — the top-level Tag nodes and, for
each top-level conditional, the Tag nodes of its branch expressions and the
direct children of its branch bodies, excluding the `else` body, loop bodies
and deeper nesting — while `content_hash` is the digest of the fully
rendered output and `page_hash` the digest of the template's string
reconstruction `str(self)` (not of the raw source text).  The theorem is
scoped to presence-free templates (`presFree`): for a presence conditional
the reconstruction digested at this point depends on how much of its
one-shot branch iterators the preceding render consumed, which the pure
embedding does not track.  (The source digests with `hashlib.md5`; the
digest is a parameter here.) -/
theorem C8_noparse_structure (digest : String → String) (nodes : List Node)
    (repl : Repl) (rendered pageStr : String) (tags : List (String × String))
    (hpf : presFree nodes = true)
    (h1 : NodesParse nodes repl = .ok rendered)
    (h2 : CollectTags nodes repl = .ok tags)
    (h3 : nodesToStringE nodes = .ok pageStr) :
    TemplateNoParse digest nodes repl
      = some (.ok ⟨tags, digest rendered, digest pageStr⟩) := by
  simp [TemplateNoParse, hpf, h1, h2, h3]

/-- Witness for the amended C8 on the counterexample template. -/
theorem C8_noparse_structure_witness :
    TemplateNoParse id
        [Node.condNode [([ExprTok.etag ⟨"c", [], []⟩], [Node.tagNode ⟨"x", [], []⟩])]
          (some [Node.tagNode ⟨"y", [], []⟩])]
        [("c", Value.vbool true), ("x", Value.vstr "1" none),
         ("y", Value.vstr "2" none)]
      = some (.ok ⟨[("[c]", "True"), ("[x]", "1")], "1",
          "\n\x7b\x7b if [c] \x7d\x7d[x]\n\x7b\x7b else \x7d\x7d[y]\n\x7b\x7b endif \x7d\x7d"⟩) :=
  C8_noparse_structure id
    [Node.condNode [([ExprTok.etag ⟨"c", [], []⟩], [Node.tagNode ⟨"x", [], []⟩])]
      (some [Node.tagNode ⟨"y", [], []⟩])]
    [("c", Value.vbool true), ("x", Value.vstr "1" none), ("y", Value.vstr "2" none)]
    "1" "\n\x7b\x7b if [c] \x7d\x7d[x]\n\x7b\x7b else \x7d\x7d[y]\n\x7b\x7b endif \x7d\x7d"
    [("[c]", "True"), ("[x]", "1")]
    (by simp [presFree, presFreeNode, presFreeBranches, presFreeOpt])
    (by
      have hx : TagParse ⟨"x", [], []⟩
          [("c", Value.vbool true), ("x", Value.vstr "1" none),
           ("y", Value.vstr "2" none)] = .ok "1" := by
        have h1 : GetValue ⟨"x", [], []⟩
            [("c", Value.vbool true), ("x", Value.vstr "1" none),
             ("y", Value.vstr "2" none)] = .ok (Value.vstr "1" none) := by rfl
        simp [TagParse, h1, isSafe, fnDefault, pyStr_vstr]
        rfl
      have hc : condExpression [ExprTok.etag ⟨"c", [], []⟩]
          [("c", Value.vbool true), ("x", Value.vstr "1" none),
           ("y", Value.vstr "2" none)] = .ok (Value.vbool true) := by rfl
      simp [NodesParse, NodeParse, CondBranches, hc, pyTruthy, hx])
    (by
      have hx : TagParse ⟨"x", [], []⟩
          [("c", Value.vbool true), ("x", Value.vstr "1" none),
           ("y", Value.vstr "2" none)] = .ok "1" := by
        have h1 : GetValue ⟨"x", [], []⟩
            [("c", Value.vbool true), ("x", Value.vstr "1" none),
             ("y", Value.vstr "2" none)] = .ok (Value.vstr "1" none) := by rfl
        simp [TagParse, h1, isSafe, fnDefault, pyStr_vstr]
        rfl
      have hcc : TagParse ⟨"c", [], []⟩
          [("c", Value.vbool true), ("x", Value.vstr "1" none),
           ("y", Value.vstr "2" none)] = .ok "True" := by
        have h1 : GetValue ⟨"c", [], []⟩
            [("c", Value.vbool true), ("x", Value.vstr "1" none),
             ("y", Value.vstr "2" none)] = .ok (Value.vbool true) := by rfl
        simp [TagParse, h1, isSafe, fnDefault, pyStr_vbool, pyStr_vstr]
        rfl
      simp [CollectTags, collectInto, condChainTags, condExprTags, bodyTags, hcc, hx, sset]
      rfl)
    (by
      simp [nodesToStringE, nodeToStringE, condBranchStrsE, elseStrE, exprTokensStr]
      rfl)

end UWeb3
